import Mathlib

/-!
# read-yaml-configuration-deployment: a verification development

A shallow embedding of `examples/read-yaml-configuration-deployment/main.go`.

`main` is a straight line of calls into the Go standard library, the
Kubernetes client library and the cluster.  Everything outside the program is
collected in a `World`: one answer function per external call.  Running `main`
in a world yields the ordered list of the calls and `fmt.Printf`s it performed
(the trace) together with the way the process ended.
-/

namespace ReadYaml

/-! ## Data model -/

/-- A byte of a Go `[]byte`, kept as a natural number; `0` is the byte `0x00`. -/
abbrev Byte := Nat

/-- The message of a Go `error` value. -/
abbrev Err := String

/-- The `schema.GroupVersionKind` reported by the universal deserializer. -/
structure GroupVersionKind where
  Group : String
  Version : String
  Kind : String
deriving DecidableEq, Repr

/-- A decoded `runtime.Object`; its content is owned by the client library. -/
structure RuntimeObject where
  content : String
deriving DecidableEq, Repr

/-- The part of `appsv1beta1.Deployment` the program looks at: its name; the rest is `Spec`. -/
structure Deployment where
  Name : String
  Spec : String
deriving DecidableEq, Repr

/-- One entry of `corev1.ServiceSpec.Ports`. -/
structure ServicePort where
  Port : Int
  NodePort : Int
deriving DecidableEq, Repr

/-- The part of `corev1.ServiceSpec` the program looks at. -/
structure ServiceSpec where
  Ports : List ServicePort
deriving DecidableEq, Repr

/-- The part of `corev1.Service` the program looks at. -/
structure Service where
  Name : String
  Spec : ServiceSpec
deriving DecidableEq, Repr

/-- The part of `corev1.PodStatus` the program looks at. -/
structure PodStatus where
  HostIP : String
deriving DecidableEq, Repr

/-- The part of `corev1.Pod` the program looks at. -/
structure Pod where
  Name : String
  Status : PodStatus
deriving DecidableEq, Repr

/-- An open `*os.File`. -/
structure File where
  fd : Nat
deriving DecidableEq, Repr

/-- A `*rest.Config` built from a kubeconfig file. -/
structure Config where
  host : String
deriving DecidableEq, Repr

/-- A `*kubernetes.Clientset`. -/
structure Clientset where
  config : Config
deriving DecidableEq, Repr

/-- The values of the two command-line flags, `none` when a flag is not given. -/
structure Flags where
  kubeconfig : Option String
  f : Option String
deriving DecidableEq, Repr

/-- The constant `corev1.NamespaceDefault`. -/
def NamespaceDefault : String := "default"

/-! ## Trace of a run -/

/-- The requests the client library can send to the cluster for the three
resources the program touches. -/
inductive RemoteOp where
  | deploymentsCreate (ns : String) (d : Deployment)
  | deploymentsUpdate (ns : String) (d : Deployment)
  | servicesCreate (ns : String) (s : Service)
  | servicesUpdate (ns : String) (s : Service)
  | servicesGet (ns : String) (name : String)
  | podsGet (ns : String) (name : String)
deriving DecidableEq, Repr

/-- The namespace a request is addressed to. -/
def RemoteOp.ns : RemoteOp → String
  | .deploymentsCreate ns _ => ns
  | .deploymentsUpdate ns _ => ns
  | .servicesCreate ns _ => ns
  | .servicesUpdate ns _ => ns
  | .servicesGet ns _ => ns
  | .podsGet ns _ => ns

/-- A call that can return an error, with the arguments it is given. -/
inductive Call where
  | filepathAbs (path : String)
  | osOpen (path : String)
  | fileStat (file : File)
  | documentRead (nth : Nat) (bufLen : Nat)
  | decode (data : List Byte)
  | jsonMarshal (obj : RuntimeObject)
  | jsonUnmarshalDeployment (data : List Byte)
  | jsonUnmarshalService (data : List Byte)
  | buildConfigFromFlags (masterUrl : String) (kubeconfigPath : String)
  | newForConfig (config : Config)
  | remote (op : RemoteOp)
deriving DecidableEq, Repr

/-- An argument handed to `fmt.Printf`. -/
inductive Arg where
  | str (s : String)
  | err (e : Err)
  | int (i : Int)
deriving DecidableEq, Repr

/-- One observable step of a run: a call together with the error it returned
(`none` for a nil error), or a `fmt.Printf` with its format and arguments. -/
inductive Event where
  | call (c : Call) (err : Option Err)
  | printf (format : String) (args : List Arg)
deriving DecidableEq, Repr

/-- The ways the process stops before reaching the end of `main`. -/
inductive Stop where
  | panicErr (e : Err)
  | panicIndex (index : Nat) (len : Nat)
  | exit (code : Nat)
deriving DecidableEq, Repr

/-- A computation of `main`: the events performed so far and either a value
or the reason the process stopped. -/
structure Run (α : Type) where
  trace : List Event
  result : Except Stop α

/-- Sequencing: the second part runs only when the first did not stop. -/
def Run.bind {α β : Type} (r : Run α) (k : α → Run β) : Run β :=
  match r.result with
  | .error s => ⟨r.trace, .error s⟩
  | .ok a => ⟨r.trace ++ (k a).trace, (k a).result⟩

instance : Monad Run where
  pure a := ⟨[], .ok a⟩
  bind := Run.bind

/-- The error of a result, `none` when it is nil. -/
def errOf {α : Type} : Except Err α → Option Err
  | .ok _ => none
  | .error e => some e

/-- Perform a call: it is recorded with its error and its result is handed on. -/
def invoke {α : Type} (c : Call) (r : Except Err α) : Run (Except Err α) :=
  ⟨[Event.call c (errOf r)], .ok r⟩

/-- The Go idiom `if err != nil { panic(err) }`. -/
def check {α : Type} (r : Except Err α) : Run α :=
  match r with
  | .ok a => ⟨[], .ok a⟩
  | .error e => ⟨[], .error (Stop.panicErr e)⟩

/-- A call whose error is checked right away:
`x, err := f(...)` followed by `if err != nil { panic(err) }`. -/
def must {α : Type} (c : Call) (r : Except Err α) : Run α :=
  (invoke c r).bind check

/-- A call to `fmt.Printf`. -/
def printf (format : String) (args : List Arg) : Run Unit :=
  ⟨[Event.printf format args], .ok ()⟩

/-- The slice index expression `ports[0]`, which panics on an empty slice. -/
def index0 (ports : List ServicePort) : Run ServicePort :=
  match ports with
  | [] => ⟨[], .error (Stop.panicIndex 0 0)⟩
  | p :: _ => ⟨[], .ok p⟩

/-! ## The world outside the program -/

/-- Everything `main` asks of its environment.  The cluster may answer the
same request differently each time, so each call site has its own answer
function; `deploymentsUpdate` is called at two places of `main`, told apart by
the first argument (`0` for the deployment step, `1` for the service step). -/
structure World where
  home : String
  join : List String → String
  flags : Option Flags
  abs : String → Except Err String
  osOpen : String → Except Err File
  stat : File → Except Err Nat
  read : Nat → Nat → Except Err (List Byte)
  decode : List Byte → Except Err (RuntimeObject × GroupVersionKind)
  marshal : RuntimeObject → Except Err (List Byte)
  unmarshalDeployment : List Byte → Except Err Deployment
  unmarshalService : List Byte → Except Err Service
  buildConfig : String → String → Except Err Config
  newForConfig : Config → Except Err Clientset
  deploymentsCreate : String → Deployment → Except Err Deployment
  deploymentsUpdate : Nat → String → Deployment → Except Err Deployment
  servicesCreate : String → Service → Except Err Service
  servicesGet : String → String → Except Err Service
  podsGet : String → String → Except Err Pod

/-! ## `strings.TrimRight(s, "\x00")` -/

/-- The loop of Go's `trimRightByte`: `for len(s) > 0 && s[len(s)-1] == c`
shortens `s` by one; the argument is the current length and the result the
final one. -/
def trimRightLen (s : List Byte) (c : Byte) : Nat → Nat
  | 0 => 0
  | n + 1 => if s[n]? = some c then trimRightLen s c n else n + 1

/-- Go's `trimRightByte(s, c)`, the code `strings.TrimRight` runs for a
cutset of one ASCII byte: `s[:n]` for the final length `n` of the loop. -/
def trimRightByte (s : List Byte) (c : Byte) : List Byte :=
  s.take (trimRightLen s c s.length)

/-- The expression `strings.TrimRight(string(buf), string(byte(0)))` of `main`. -/
def trimNul (buf : List Byte) : List Byte :=
  trimRightByte buf 0

/-- The buffer `make([]byte, size)` after a successful `Read` copied `chunk`
into its front: the bytes never written stay `0x00`. -/
def fillBuffer (size : Nat) (chunk : List Byte) : List Byte :=
  chunk.take size ++ List.replicate (size - chunk.length) 0

/-! ## The program -/

/-- The default of the flag `kubeconfig` (lines 46-51):
`filepath.Join(home, ".kube", "config")` when `homedir.HomeDir()` is not
empty, the empty string otherwise. -/
def kubeconfigDefault (w : World) : String :=
  if w.home ≠ "" then w.join [w.home, ".kube", "config"] else ""

/-- The value `*kubeconfig` after `flag.Parse()`. -/
def kubeconfigValue (w : World) (fl : Flags) : String :=
  fl.kubeconfig.getD (kubeconfigDefault w)

/-- The value `*yamlfilename` after `flag.Parse()` (line 58). -/
def yamlfilenameValue (fl : Flags) : String :=
  fl.f.getD "configuration.yaml"

/-- The call `flag.Parse()` (line 61): the default flag set exits with
status 2 on a command line it cannot parse. -/
def flagParse (w : World) : Run Flags :=
  match w.flags with
  | some fl => ⟨[], .ok fl⟩
  | none => ⟨[], .error (Stop.exit 2)⟩

/-- The path returned by `filepath.Abs`, which is `""` next to a non-nil error. -/
def pathOf : Except Err String → String
  | .ok p => p
  | .error _ => ""

/-- Lines 63-77: resolve the file name, open the file and take its size.
The error of `filepath.Abs` is overwritten by the one of `os.Open` without
being looked at. -/
def openYaml (w : World) (fl : Flags) : Run Nat := do
  let absResult ← invoke (Call.filepathAbs (yamlfilenameValue fl)) (w.abs (yamlfilenameValue fl))
  let yamlFilepath := pathOf absResult
  let reader ← must (Call.osOpen yamlFilepath) (w.osOpen yamlFilepath)
  let fileSize ← must (Call.fileStat reader) (w.stat reader)
  pure fileSize

/-- Lines 86-94 and 116-124: read the next document into a fresh buffer of
the size of the file and trim the trailing `0x00` bytes. -/
def readDocument (w : World) (nth : Nat) (fileSize : Nat) : Run (List Byte) := do
  let chunk ← must (Call.documentRead nth fileSize) (w.read nth fileSize)
  pure (trimNul (fillBuffer fileSize chunk))

/-- Lines 86-114: the first document becomes the `Deployment` struct. -/
def loadDeployment (w : World) (fileSize : Nat) : Run Deployment := do
  let trimmedYamlDeployment ← readDocument w 0 fileSize
  let (jsonDeployment, groupVersionKind) ←
    must (Call.decode trimmedYamlDeployment) (w.decode trimmedYamlDeployment)
  printf "groupVersionKind.Group: %s, groupVersionKind.Kind: %s, groupVersionKind.Version: %s\n"
    [Arg.str groupVersionKind.Group, Arg.str groupVersionKind.Kind, Arg.str groupVersionKind.Version]
  let d ← must (Call.jsonMarshal jsonDeployment) (w.marshal jsonDeployment)
  let deployment ← must (Call.jsonUnmarshalDeployment d) (w.unmarshalDeployment d)
  pure deployment

/-- Lines 116-143: the second document becomes the `Service` struct; the
group/version/kind of this document is discarded. -/
def loadService (w : World) (fileSize : Nat) : Run Service := do
  let trimmedYamlService ← readDocument w 1 fileSize
  let (jsonService, _) ←
    must (Call.decode trimmedYamlService) (w.decode trimmedYamlService)
  let s ← must (Call.jsonMarshal jsonService) (w.marshal jsonService)
  let service ← must (Call.jsonUnmarshalService s) (w.unmarshalService s)
  pure service

/-- Lines 145-154: build the client configuration and the clientset. -/
def connect (w : World) (fl : Flags) : Run Clientset := do
  let config ← must (Call.buildConfigFromFlags "" (kubeconfigValue w fl))
    (w.buildConfig "" (kubeconfigValue w fl))
  let clientset ← must (Call.newForConfig config) (w.newForConfig config)
  pure clientset

/-- Lines 162-177: create the deployment, update it when the creation fails. -/
def applyDeployment (w : World) (deployment : Deployment) : Run Unit := do
  printf "Create deployment %q\n" [Arg.str deployment.Name]
  let created ← invoke (Call.remote (RemoteOp.deploymentsCreate NamespaceDefault deployment))
    (w.deploymentsCreate NamespaceDefault deployment)
  match created with
  | .error err =>
    printf "Info: %s\n\n" [Arg.err err]
    printf "Update deployment %q\n" [Arg.str deployment.Name]
    let updatedDeployment ← must
      (Call.remote (RemoteOp.deploymentsUpdate NamespaceDefault deployment))
      (w.deploymentsUpdate 0 NamespaceDefault deployment)
    printf "Deployment %q updated\n\n" [Arg.str updatedDeployment.Name]
  | .ok createdDeployment =>
    printf "Deployment %q created\n\n" [Arg.str createdDeployment.Name]

/-- Lines 179-194: create the service; when the creation fails the code calls
`deploymentsClient.Update(&deployment)` and prints the name of its result. -/
def applyService (w : World) (deployment : Deployment) (service : Service) : Run Unit := do
  printf "Create service %q\n" [Arg.str service.Name]
  let created ← invoke (Call.remote (RemoteOp.servicesCreate NamespaceDefault service))
    (w.servicesCreate NamespaceDefault service)
  match created with
  | .error err =>
    printf "Info: %s\n\n" [Arg.err err]
    printf "Update service %q\n" [Arg.str service.Name]
    let updatedService ← must
      (Call.remote (RemoteOp.deploymentsUpdate NamespaceDefault deployment))
      (w.deploymentsUpdate 1 NamespaceDefault deployment)
    printf "Service %q updated\n" [Arg.str updatedService.Name]
  | .ok createdService =>
    printf "Service %q created\n" [Arg.str createdService.Name]

/-- Lines 196-212: fetch the running service and the minikube pod, print the URL. -/
def printUrl (w : World) (service : Service) : Run Unit := do
  let runningService ← must
    (Call.remote (RemoteOp.servicesGet NamespaceDefault service.Name))
    (w.servicesGet NamespaceDefault service.Name)
  let pod ← invoke (Call.remote (RemoteOp.podsGet "kube-system" "kube-addon-manager-minikube"))
    (w.podsGet "kube-system" "kube-addon-manager-minikube")
  match pod with
  | .error err =>
    printf "\nInfo: %s" [Arg.err err]
    let port ← index0 runningService.Spec.Ports
    printf "\nPlease help yourself and view: http://<ip-address>:%v\n\n" [Arg.int port.NodePort]
  | .ok pod =>
    let port ← index0 runningService.Spec.Ports
    printf "\nPlease view: http://%s:%v\n\n" [Arg.str pod.Status.HostIP, Arg.int port.NodePort]

/-- Lines 162-212: the steps that talk to the cluster. -/
def applyAll (w : World) (deployment : Deployment) (service : Service) : Run Unit := do
  applyDeployment w deployment
  applyService w deployment service
  printUrl w service

/-- Lines 40-160: everything before the first request to the cluster. -/
def prepare (w : World) : Run (Deployment × Service) := do
  let fl ← flagParse w
  let fileSize ← openYaml w fl
  let deployment ← loadDeployment w fileSize
  let service ← loadService w fileSize
  let _clientset ← connect w fl
  pure (deployment, service)

/-- The function `main`. -/
def main (w : World) : Run Unit := do
  let (deployment, service) ← prepare w
  applyAll w deployment service

/-! ## Reading a trace -/

/-- The request of an event that is a call to the cluster. -/
def Event.remoteOp : Event → Option RemoteOp
  | .call (.remote op) _ => some op
  | _ => none

/-- The requests sent to the cluster, in the order they were sent. -/
def remoteOps (trace : List Event) : List RemoteOp :=
  trace.filterMap Event.remoteOp

/-- A property shared by every event of a trace. -/
def AllEvents (P : Event → Prop) (t : List Event) : Prop :=
  ∀ ev ∈ t, P ev

/-- The result of a whole run: `none` when `main` returned, the reason otherwise. -/
def stopOf {α : Type} (r : Run α) : Option Stop :=
  match r.result with
  | .ok _ => none
  | .error s => some s

/-- Whether a request is about the resource Pods. -/
def RemoteOp.isPods : RemoteOp → Bool
  | .podsGet _ _ => true
  | _ => false

/-- The requests the deployment step (lines 162-177) can send. -/
def deploymentRequests (d : Deployment) : List RemoteOp :=
  [RemoteOp.deploymentsCreate NamespaceDefault d, RemoteOp.deploymentsUpdate NamespaceDefault d]

/-- The requests the service step (lines 179-194) can send. -/
def serviceRequests (d : Deployment) (s : Service) : List RemoteOp :=
  [RemoteOp.servicesCreate NamespaceDefault s, RemoteOp.deploymentsUpdate NamespaceDefault d]

/-- The requests the last step (lines 196-212) can send. -/
def urlRequests (s : Service) : List RemoteOp :=
  [RemoteOp.servicesGet NamespaceDefault s.Name,
   RemoteOp.podsGet "kube-system" "kube-addon-manager-minikube"]

/-- The requests `main` can send for a parsed deployment and service. -/
def requestsOf (d : Deployment) (s : Service) : List RemoteOp :=
  deploymentRequests d ++ serviceRequests d s ++ urlRequests s

/-- An event of a step that talks to the cluster: a `Printf`, or one of the
requests the step is allowed. -/
def Event.isStepEvent (allowed : List RemoteOp) (ev : Event) : Prop :=
  (∃ f a, ev = Event.printf f a) ∨ ∃ op r, ev = Event.call (Call.remote op) r ∧ op ∈ allowed

/-- Whether a request is a `Deployments.Create`. -/
def RemoteOp.isDeploymentsCreate : RemoteOp → Bool
  | .deploymentsCreate _ _ => true
  | _ => false

/-- Whether a request is a `Services.Update`. -/
def RemoteOp.isServicesUpdate : RemoteOp → Bool
  | .servicesUpdate _ _ => true
  | _ => false

/-- Whether a call is the `Pods(...).Get` request. -/
def Call.isPodsGet : Call → Bool
  | .remote (.podsGet _ _) => true
  | _ => false

/-- The calls whose error `main` answers with `panic(err)`: opening and
stat-ing the file, reading and decoding a document, the JSON conversions,
building the client configuration and the clientset, the updates and the
`Get` of the service.  Not among them: `filepath.Abs`, the two `Create`
calls and the `Get` of the pod. -/
def Call.isChecked : Call → Bool
  | .osOpen _ => true
  | .fileStat _ => true
  | .documentRead _ _ => true
  | .decode _ => true
  | .jsonMarshal _ => true
  | .jsonUnmarshalDeployment _ => true
  | .jsonUnmarshalService _ => true
  | .buildConfigFromFlags _ _ => true
  | .newForConfig _ => true
  | .remote (.deploymentsUpdate _ _) => true
  | .remote (.servicesUpdate _ _) => true
  | .remote (.servicesGet _ _) => true
  | _ => false

/-- The error discipline of a trace that ended with `res`: after a failed
checked call nothing follows and the process has panicked with that error;
after a failed `Get` of the pod the error is printed. -/
def FailStopList (res : Option Stop) : List Event → Prop
  | [] => True
  | Event.call c (some e) :: post =>
    (c.isChecked = true → post = [] ∧ res = some (Stop.panicErr e))
    ∧ (c.isPodsGet = true → ∃ post2, post = Event.printf "\nInfo: %s" [Arg.err e] :: post2)
    ∧ FailStopList res post
  | _ :: post => FailStopList res post

/-- The error discipline of a computation. -/
def FailStop {α : Type} (r : Run α) : Prop :=
  FailStopList (stopOf r) r.trace

/-- Whether an event prints one of the two lines with the URL (lines 209 and 211). -/
def Event.isUrlLine : Event → Bool
  | .printf f _ =>
    f == "\nPlease view: http://%s:%v\n\n"
      || f == "\nPlease help yourself and view: http://<ip-address>:%v\n\n"
  | _ => false

/-- Both documents were read into a buffer of `fileSize` bytes, decoded and
converted: the first one into the deployment `d`, the second one into the
service `s`. -/
def Loaded (w : World) (fileSize : Nat) (d : Deployment) (s : Service) : Prop :=
  ∃ chunk1 obj1 gvk1 json1 chunk2 obj2 gvk2 json2,
    w.read 0 fileSize = .ok chunk1
    ∧ w.decode (trimNul (fillBuffer fileSize chunk1)) = .ok (obj1, gvk1)
    ∧ w.marshal obj1 = .ok json1
    ∧ w.unmarshalDeployment json1 = .ok d
    ∧ w.read 1 fileSize = .ok chunk2
    ∧ w.decode (trimNul (fillBuffer fileSize chunk2)) = .ok (obj2, gvk2)
    ∧ w.marshal obj2 = .ok json2
    ∧ w.unmarshalService json2 = .ok s

/-- The calls that read, decode and convert a document. -/
def Call.isLoad : Call → Bool
  | .documentRead _ _ => true
  | .decode _ => true
  | .jsonMarshal _ => true
  | .jsonUnmarshalDeployment _ => true
  | .jsonUnmarshalService _ => true
  | _ => false

/-- Whether an event prints the group, kind and version of the first document (line 101). -/
def Event.isGvkLine : Event → Bool
  | .printf f _ =>
    f == "groupVersionKind.Group: %s, groupVersionKind.Kind: %s, groupVersionKind.Version: %s\n"
  | _ => false

/-- A trace without the line that prints the group, kind and version. -/
def eraseGvkLine (t : List Event) : List Event :=
  t.filter fun ev => !ev.isGvkLine

/-- The outcome of the decoder without the group/version/kind it reports. -/
def decodedObject : Except Err (RuntimeObject × GroupVersionKind) → Except Err RuntimeObject
  | .ok (obj, _) => .ok obj
  | .error e => .error e

/-- The world `w` with another decoder. -/
def World.withDecode (w : World)
    (dec : List Byte → Except Err (RuntimeObject × GroupVersionKind)) : World :=
  { w with decode := dec }

/-- Two computations that end the same way and perform the same events, the
line with the group, kind and version apart. -/
def SameButGvkLine {α : Type} (r1 r2 : Run α) : Prop :=
  r1.result = r2.result ∧ eraseGvkLine r1.trace = eraseGvkLine r2.trace

/-- Whether an event, when it is the call `clientcmd.BuildConfigFromFlags`,
has an empty master URL and the kubeconfig path `path`. -/
def Event.buildsConfigFrom (path : String) : Event → Bool
  | .call (.buildConfigFromFlags m k) _ => m == "" && k == path
  | _ => true

/-! ## Worlds used as examples -/

/-- A world in which every call succeeds: no flags, a file of eight bytes
holding two documents, a fresh cluster, and the minikube pod present. -/
def demoWorld : World where
  home := "/home/user"
  join := fun parts => "/".intercalate (parts.filter fun part => part ≠ "")
  flags := some ⟨none, none⟩
  abs := fun p => .ok ("/work/" ++ p)
  osOpen := fun _ => .ok ⟨3⟩
  stat := fun _ => .ok 8
  read := fun nth _ => .ok (if nth = 0 then [100, 0, 101] else [115])
  decode := fun data =>
    if data = [100, 0, 101] then .ok (⟨"d"⟩, ⟨"apps", "v1beta1", "Deployment"⟩)
    else .ok (⟨"s"⟩, ⟨"", "v1", "Service"⟩)
  marshal := fun obj => .ok (if obj.content = "d" then [1] else [2])
  unmarshalDeployment := fun _ => .ok ⟨"web", "replicas: 2"⟩
  unmarshalService := fun _ => .ok ⟨"web-svc", ⟨[⟨80, 0⟩]⟩⟩
  buildConfig := fun _ path => .ok ⟨path⟩
  newForConfig := fun c => .ok ⟨c⟩
  deploymentsCreate := fun _ d => .ok d
  deploymentsUpdate := fun _ _ d => .ok d
  servicesCreate := fun _ s => .ok s
  servicesGet := fun _ name => .ok ⟨name, ⟨[⟨80, 31000⟩]⟩⟩
  podsGet := fun _ name => .ok ⟨name, ⟨"192.168.99.100"⟩⟩

/-- The deployment parsed in `demoWorld`. -/
def demoDeployment : Deployment := ⟨"web", "replicas: 2"⟩

/-- The service parsed in `demoWorld`. -/
def demoService : Service := ⟨"web-svc", ⟨[⟨80, 0⟩]⟩⟩

/-- The world `demoWorld` on a cluster without the minikube pod. -/
def podMissingWorld : World :=
  { demoWorld with podsGet := fun _ _ => .error "pod not found" }

/-- The world `demoWorld` on a cluster that already holds the service. -/
def serviceExistsWorld : World :=
  { demoWorld with servicesCreate := fun _ _ => .error "service already exists" }

/-- The world `demoWorld` with a file whose size cannot be taken. -/
def statFailsWorld : World :=
  { demoWorld with stat := fun _ => .error "stat failed" }

/-- The world `demoWorld` on a cluster whose running service has no port. -/
def noPortWorld : World :=
  { demoWorld with servicesGet := fun _ name => .ok ⟨name, ⟨[]⟩⟩ }

/-- The world `demoWorld` with a file that holds one document only: the
second read returns `io.EOF`. -/
def oneDocumentWorld : World :=
  { demoWorld with read := fun nth _ => if nth = 0 then .ok [100, 0, 101] else .error "EOF" }

/-- A decoder that decodes as the one of `demoWorld` does but reports the
kind `Service` for every document. -/
def serviceKindDecode (data : List Byte) : Except Err (RuntimeObject × GroupVersionKind) :=
  if data = [100, 0, 101] then .ok (⟨"d"⟩, ⟨"apps", "v1beta1", "Service"⟩)
  else .ok (⟨"s"⟩, ⟨"", "v1", "Service"⟩)

/-- The world `demoWorld` for a user without a home directory. -/
def noHomeWorld : World :=
  { demoWorld with home := "" }

/-- The world `demoWorld` started with both flags. -/
def flagsWorld : World :=
  { demoWorld with flags := some ⟨some "/etc/kube.conf", some "app.yaml"⟩ }

/-- The world `demoWorld` started in a working directory that cannot be
resolved: `filepath.Abs` fails, and so does opening the empty path. -/
def absFailsWorld : World :=
  { demoWorld with
    abs := fun _ => .error "getwd: no such file or directory"
    osOpen := fun path =>
      if path = "" then .error "open : no such file or directory" else .ok ⟨3⟩ }

/-- The world `demoWorld` on a cluster that refuses both the creation and
the update of the deployment. -/
def deploymentBrokenWorld : World :=
  { demoWorld with
    deploymentsCreate := fun _ _ => .error "create refused"
    deploymentsUpdate := fun _ _ _ => .error "update refused" }

/-- The world `demoWorld` on a cluster without the minikube pod whose running
service has no port. -/
def noPortPodMissingWorld : World :=
  { demoWorld with
    servicesGet := fun _ name => .ok ⟨name, ⟨[]⟩⟩
    podsGet := fun _ _ => .error "pod not found" }

/-! ## Facts about the trim -/

theorem trimRightLen_le (s : List Byte) (c : Byte) (n : Nat) : trimRightLen s c n ≤ n := by
  induction n with
  | zero => simp [trimRightLen]
  | succ n ih =>
    unfold trimRightLen
    split
    · exact Nat.le_succ_of_le ih
    · exact Nat.le_refl _

theorem trimRightLen_tail (s : List Byte) (c : Byte) (n i : Nat)
    (h1 : trimRightLen s c n ≤ i) (h2 : i < n) : s[i]? = some c := by
  induction n with
  | zero => omega
  | succ n ih =>
    unfold trimRightLen at h1
    split at h1
    · rename_i hc
      rcases Nat.lt_succ_iff_lt_or_eq.mp h2 with h | h
      · exact ih h1 h
      · subst h; exact hc
    · omega

theorem trimRightLen_last (s : List Byte) (c : Byte) (n : Nat) :
    trimRightLen s c n = 0 ∨ s[trimRightLen s c n - 1]? ≠ some c := by
  induction n with
  | zero => simp [trimRightLen]
  | succ n ih =>
    unfold trimRightLen
    split
    · exact ih
    · rename_i hc
      right; simpa using hc

theorem trimRightLen_fix (s : List Byte) (c : Byte) (n : Nat)
    (h : n = 0 ∨ s[n - 1]? ≠ some c) : trimRightLen s c n = n := by
  cases n with
  | zero => simp [trimRightLen]
  | succ n =>
    rcases h with h | h
    · omega
    · unfold trimRightLen
      simp at h
      simp [h]

theorem trimRightByte_append (s : List Byte) (c : Byte) :
    s = trimRightByte s c ++ List.replicate (s.length - trimRightLen s c s.length) c := by
  have hle := trimRightLen_le s c s.length
  apply List.ext_getElem?
  intro i
  unfold trimRightByte
  by_cases hi : i < trimRightLen s c s.length
  · rw [List.getElem?_append_left (by simp; omega)]
    simp [List.getElem?_take, hi]
  · rw [List.getElem?_append_right (by simp; omega)]
    by_cases hlen : i < s.length
    · rw [trimRightLen_tail s c s.length i (by omega) hlen]
      simp [List.getElem?_replicate]
      omega
    · rw [List.getElem?_eq_none (by omega)]
      simp only [List.length_take, Nat.min_eq_left hle]
      rw [List.getElem?_eq_none (by simp; omega)]

theorem trimRightByte_idem (s : List Byte) (c : Byte) :
    trimRightByte (trimRightByte s c) c = trimRightByte s c := by
  have hle := trimRightLen_le s c s.length
  have hlen : (trimRightByte s c).length = trimRightLen s c s.length := by
    simp [trimRightByte]; omega
  have hfix : trimRightLen (trimRightByte s c) c (trimRightLen s c s.length)
      = trimRightLen s c s.length := by
    apply trimRightLen_fix
    rcases trimRightLen_last s c s.length with h | h
    · left; exact h
    · by_cases h0 : trimRightLen s c s.length = 0
      · left; exact h0
      · right
        unfold trimRightByte
        rw [List.getElem?_take]
        simpa [show trimRightLen s c s.length - 1 < trimRightLen s c s.length by omega] using h
  have hunf : trimRightByte (trimRightByte s c) c
      = (trimRightByte s c).take
          (trimRightLen (trimRightByte s c) c (trimRightByte s c).length) := rfl
  rw [hunf, hlen, hfix, ← hlen]
  simp

/-- C8: the text handed to the decoder, `strings.TrimRight(buf, "\x00")`, is a
leading part of the buffer, is empty or ends in a byte other than `0x00`, the
buffer is this text followed by `0x00` bytes only, every byte of the text is
the byte of the buffer at the same position, and trimming twice changes
nothing more. -/
theorem trimNul_spec (b : List Byte) :
    trimNul b <+: b
    ∧ (trimNul b = [] ∨ ∃ x, (trimNul b).getLast? = some x ∧ x ≠ 0)
    ∧ (∃ k, b = trimNul b ++ List.replicate k 0)
    ∧ (∀ i, i < (trimNul b).length → (trimNul b)[i]? = b[i]?)
    ∧ trimNul (trimNul b) = trimNul b := by
  have hle := trimRightLen_le b 0 b.length
  have hlen : (trimNul b).length = trimRightLen b 0 b.length := by
    simp [trimNul, trimRightByte]; omega
  refine ⟨?_, ?_, ⟨_, trimRightByte_append b 0⟩, ?_, trimRightByte_idem b 0⟩
  · exact List.take_prefix _ _
  · by_cases h0 : trimNul b = []
    · left; exact h0
    · right
      have hpos : 0 < trimRightLen b 0 b.length := by
        rw [← hlen]; exact List.length_pos.mpr h0
      have hlast : (trimNul b).getLast? = b[trimRightLen b 0 b.length - 1]? := by
        rw [List.getLast?_eq_getElem?, hlen]
        simp only [trimNul, trimRightByte]
        rw [List.getElem?_take]
        simp [hpos]
      have hlt : trimRightLen b 0 b.length - 1 < b.length := by omega
      refine ⟨b[trimRightLen b 0 b.length - 1], ?_, ?_⟩
      · rw [hlast, List.getElem?_eq_getElem hlt]
      · intro hx
        rcases trimRightLen_last b 0 b.length with h | h
        · omega
        · apply h
          rw [List.getElem?_eq_getElem hlt, hx]
  · intro i hi
    simp only [trimNul, trimRightByte]
    rw [List.getElem?_take]
    rw [hlen] at hi
    simp [hi]


/-! ## Facts about sequencing -/

theorem bind_run {α β : Type} (r : Run α) (k : α → Run β) : (r >>= k) = r.bind k := rfl

theorem pure_run {α : Type} (a : α) : (pure a : Run α) = ⟨[], .ok a⟩ := rfl

theorem Run.bind_ok {α β : Type} {r : Run α} {a : α} (h : r.result = .ok a) (k : α → Run β) :
    r.bind k = ⟨r.trace ++ (k a).trace, (k a).result⟩ := by
  simp [Run.bind, h]

theorem Run.bind_error {α β : Type} {r : Run α} {s : Stop} (h : r.result = .error s)
    (k : α → Run β) : r.bind k = ⟨r.trace, .error s⟩ := by
  simp [Run.bind, h]

theorem mem_bind_trace {α β : Type} (r : Run α) (k : α → Run β) (ev : Event) :
    ev ∈ (r.bind k).trace ↔ ev ∈ r.trace ∨ ∃ a, r.result = .ok a ∧ ev ∈ (k a).trace := by
  cases h : r.result with
  | error s => simp [Run.bind_error h]
  | ok a => simp [Run.bind_ok h]

theorem bind_result_ok {α β : Type} (r : Run α) (k : α → Run β) (b : β) :
    (r.bind k).result = .ok b ↔ ∃ a, r.result = .ok a ∧ (k a).result = .ok b := by
  cases h : r.result with
  | error s => simp [Run.bind_error h]
  | ok a => simp [Run.bind_ok h]

theorem must_trace {α : Type} (c : Call) (r : Except Err α) :
    (must c r).trace = [Event.call c (errOf r)] := by
  cases r <;> simp [must, invoke, check, Run.bind, errOf]

theorem must_result {α : Type} (c : Call) (r : Except Err α) :
    (must c r).result = match r with
      | .ok a => .ok a
      | .error e => .error (Stop.panicErr e) := by
  cases r <;> simp [must, invoke, check, Run.bind]

theorem must_result_ok {α : Type} (c : Call) (r : Except Err α) (a : α) :
    (must c r).result = .ok a ↔ r = .ok a := by
  cases r <;> simp [must_result]

/-! ## Properties of every event of a trace -/

theorem all_bind {α β : Type} {P : Event → Prop} {r : Run α} {k : α → Run β}
    (hr : AllEvents P r.trace) (hk : ∀ a, AllEvents P (k a).trace) :
    AllEvents P (r.bind k).trace := by
  intro ev hev
  rcases (mem_bind_trace r k ev).mp hev with h | ⟨a, _, h⟩
  · exact hr ev h
  · exact hk a ev h

theorem all_bind_ok {α β : Type} {P : Event → Prop} {r : Run α} {k : α → Run β}
    (hr : AllEvents P r.trace) (hk : ∀ a, r.result = .ok a → AllEvents P (k a).trace) :
    AllEvents P (r.bind k).trace := by
  intro ev hev
  rcases (mem_bind_trace r k ev).mp hev with h | ⟨a, ha, h⟩
  · exact hr ev h
  · exact hk a ha ev h

theorem all_must {α : Type} {P : Event → Prop} (c : Call) (r : Except Err α)
    (h : P (Event.call c (errOf r))) : AllEvents P (must c r).trace := by
  simp [AllEvents, must_trace, h]

theorem all_invoke {α : Type} {P : Event → Prop} (c : Call) (r : Except Err α)
    (h : P (Event.call c (errOf r))) : AllEvents P (invoke c r).trace := by
  simp [AllEvents, invoke, h]

theorem all_printf {P : Event → Prop} (f : String) (args : List Arg)
    (h : P (Event.printf f args)) : AllEvents P (printf f args).trace := by
  simp [AllEvents, printf, h]

theorem all_pure {α : Type} {P : Event → Prop} (a : α) :
    AllEvents P (pure a : Run α).trace := by
  simp [AllEvents, pure_run]

theorem all_flagParse {P : Event → Prop} (w : World) : AllEvents P (flagParse w).trace := by
  unfold flagParse AllEvents
  cases w.flags <;> simp

theorem remoteOps_eq_nil {t : List Event} (h : ∀ ev ∈ t, ev.remoteOp = none) :
    remoteOps t = [] := by
  simpa [remoteOps, List.filterMap_eq_nil_iff] using h

theorem remoteOps_append (a b : List Event) :
    remoteOps (a ++ b) = remoteOps a ++ remoteOps b := by
  simp [remoteOps, List.filterMap_append]

theorem mem_remoteOps {t : List Event} {op : RemoteOp} :
    op ∈ remoteOps t ↔ ∃ ev ∈ t, ev.remoteOp = some op := by
  simp [remoteOps, List.mem_filterMap]

/-! ## The two halves of `main` -/

theorem main_eq (w : World) : main w = (prepare w).bind (fun p => applyAll w p.1 p.2) := rfl

theorem main_of_prepare_ok {w : World} {d : Deployment} {s : Service}
    (h : (prepare w).result = .ok (d, s)) :
    main w = ⟨(prepare w).trace ++ (applyAll w d s).trace, (applyAll w d s).result⟩ := by
  rw [main_eq, Run.bind_ok h]

theorem main_of_prepare_error {w : World} {st : Stop} (h : (prepare w).result = .error st) :
    main w = ⟨(prepare w).trace, .error st⟩ := by
  rw [main_eq, Run.bind_error h]

theorem prepare_no_remote (w : World) :
    AllEvents (fun ev => ev.remoteOp = none) (prepare w).trace := by
  unfold prepare connect loadService loadDeployment readDocument openYaml
  simp only [bind_run]
  repeat' first
    | apply all_must
    | apply all_invoke
    | apply all_printf
    | apply all_pure
    | apply all_flagParse
    | apply all_bind
    | rfl
    | intro _

theorem prepare_remoteOps (w : World) : remoteOps (prepare w).trace = [] :=
  remoteOps_eq_nil (prepare_no_remote w)

theorem main_remoteOps_of_ok {w : World} {d : Deployment} {s : Service}
    (h : (prepare w).result = .ok (d, s)) :
    remoteOps (main w).trace = remoteOps (applyAll w d s).trace := by
  rw [main_of_prepare_ok h]
  simp only [remoteOps_append, prepare_remoteOps, List.nil_append]

theorem main_remoteOps_of_error {w : World} {st : Stop} (h : (prepare w).result = .error st) :
    remoteOps (main w).trace = [] := by
  rw [main_of_prepare_error h]
  exact prepare_remoteOps w

/-! ## The three steps that talk to the cluster, case by case -/

theorem applyDeployment_created {w : World} {d c : Deployment}
    (h : w.deploymentsCreate NamespaceDefault d = .ok c) :
    applyDeployment w d =
      ⟨[Event.printf "Create deployment %q\n" [Arg.str d.Name],
        Event.call (Call.remote (RemoteOp.deploymentsCreate NamespaceDefault d)) none,
        Event.printf "Deployment %q created\n\n" [Arg.str c.Name]], .ok ()⟩ := by
  simp [applyDeployment, bind_run, Run.bind, invoke, printf, errOf, h]

theorem applyDeployment_updated {w : World} {d u : Deployment} {e : Err}
    (h : w.deploymentsCreate NamespaceDefault d = .error e)
    (hu : w.deploymentsUpdate 0 NamespaceDefault d = .ok u) :
    applyDeployment w d =
      ⟨[Event.printf "Create deployment %q\n" [Arg.str d.Name],
        Event.call (Call.remote (RemoteOp.deploymentsCreate NamespaceDefault d)) (some e),
        Event.printf "Info: %s\n\n" [Arg.err e],
        Event.printf "Update deployment %q\n" [Arg.str d.Name],
        Event.call (Call.remote (RemoteOp.deploymentsUpdate NamespaceDefault d)) none,
        Event.printf "Deployment %q updated\n\n" [Arg.str u.Name]], .ok ()⟩ := by
  simp [applyDeployment, bind_run, Run.bind, invoke, printf, must, check, errOf, h, hu]

theorem applyDeployment_failed {w : World} {d : Deployment} {e e2 : Err}
    (h : w.deploymentsCreate NamespaceDefault d = .error e)
    (hu : w.deploymentsUpdate 0 NamespaceDefault d = .error e2) :
    applyDeployment w d =
      ⟨[Event.printf "Create deployment %q\n" [Arg.str d.Name],
        Event.call (Call.remote (RemoteOp.deploymentsCreate NamespaceDefault d)) (some e),
        Event.printf "Info: %s\n\n" [Arg.err e],
        Event.printf "Update deployment %q\n" [Arg.str d.Name],
        Event.call (Call.remote (RemoteOp.deploymentsUpdate NamespaceDefault d)) (some e2)],
       .error (Stop.panicErr e2)⟩ := by
  simp [applyDeployment, bind_run, Run.bind, invoke, printf, must, check, errOf, h, hu]

theorem applyService_created {w : World} {d : Deployment} {s c : Service}
    (h : w.servicesCreate NamespaceDefault s = .ok c) :
    applyService w d s =
      ⟨[Event.printf "Create service %q\n" [Arg.str s.Name],
        Event.call (Call.remote (RemoteOp.servicesCreate NamespaceDefault s)) none,
        Event.printf "Service %q created\n" [Arg.str c.Name]], .ok ()⟩ := by
  simp [applyService, bind_run, Run.bind, invoke, printf, errOf, h]

theorem applyService_updated {w : World} {d u : Deployment} {s : Service} {e : Err}
    (h : w.servicesCreate NamespaceDefault s = .error e)
    (hu : w.deploymentsUpdate 1 NamespaceDefault d = .ok u) :
    applyService w d s =
      ⟨[Event.printf "Create service %q\n" [Arg.str s.Name],
        Event.call (Call.remote (RemoteOp.servicesCreate NamespaceDefault s)) (some e),
        Event.printf "Info: %s\n\n" [Arg.err e],
        Event.printf "Update service %q\n" [Arg.str s.Name],
        Event.call (Call.remote (RemoteOp.deploymentsUpdate NamespaceDefault d)) none,
        Event.printf "Service %q updated\n" [Arg.str u.Name]], .ok ()⟩ := by
  simp [applyService, bind_run, Run.bind, invoke, printf, must, check, errOf, h, hu]

theorem applyService_failed {w : World} {d : Deployment} {s : Service} {e e2 : Err}
    (h : w.servicesCreate NamespaceDefault s = .error e)
    (hu : w.deploymentsUpdate 1 NamespaceDefault d = .error e2) :
    applyService w d s =
      ⟨[Event.printf "Create service %q\n" [Arg.str s.Name],
        Event.call (Call.remote (RemoteOp.servicesCreate NamespaceDefault s)) (some e),
        Event.printf "Info: %s\n\n" [Arg.err e],
        Event.printf "Update service %q\n" [Arg.str s.Name],
        Event.call (Call.remote (RemoteOp.deploymentsUpdate NamespaceDefault d)) (some e2)],
       .error (Stop.panicErr e2)⟩ := by
  simp [applyService, bind_run, Run.bind, invoke, printf, must, check, errOf, h, hu]

theorem printUrl_get_failed {w : World} {s : Service} {e : Err}
    (h : w.servicesGet NamespaceDefault s.Name = .error e) :
    printUrl w s =
      ⟨[Event.call (Call.remote (RemoteOp.servicesGet NamespaceDefault s.Name)) (some e)],
       .error (Stop.panicErr e)⟩ := by
  simp [printUrl, bind_run, Run.bind, invoke, must, check, errOf, h]

theorem printUrl_pod_found {w : World} {s running : Service} {pod : Pod} {p : ServicePort}
    {rest : List ServicePort}
    (h : w.servicesGet NamespaceDefault s.Name = .ok running)
    (hp : w.podsGet "kube-system" "kube-addon-manager-minikube" = .ok pod)
    (hports : running.Spec.Ports = p :: rest) :
    printUrl w s =
      ⟨[Event.call (Call.remote (RemoteOp.servicesGet NamespaceDefault s.Name)) none,
        Event.call (Call.remote (RemoteOp.podsGet "kube-system" "kube-addon-manager-minikube")) none,
        Event.printf "\nPlease view: http://%s:%v\n\n"
          [Arg.str pod.Status.HostIP, Arg.int p.NodePort]], .ok ()⟩ := by
  simp [printUrl, bind_run, Run.bind, invoke, printf, must, check, errOf, index0, h, hp, hports]

theorem printUrl_pod_missing {w : World} {s running : Service} {e : Err} {p : ServicePort}
    {rest : List ServicePort}
    (h : w.servicesGet NamespaceDefault s.Name = .ok running)
    (hp : w.podsGet "kube-system" "kube-addon-manager-minikube" = .error e)
    (hports : running.Spec.Ports = p :: rest) :
    printUrl w s =
      ⟨[Event.call (Call.remote (RemoteOp.servicesGet NamespaceDefault s.Name)) none,
        Event.call (Call.remote (RemoteOp.podsGet "kube-system" "kube-addon-manager-minikube"))
          (some e),
        Event.printf "\nInfo: %s" [Arg.err e],
        Event.printf "\nPlease help yourself and view: http://<ip-address>:%v\n\n"
          [Arg.int p.NodePort]], .ok ()⟩ := by
  simp [printUrl, bind_run, Run.bind, invoke, printf, must, check, errOf, index0, h, hp, hports]

theorem printUrl_pod_found_no_port {w : World} {s running : Service} {pod : Pod}
    (h : w.servicesGet NamespaceDefault s.Name = .ok running)
    (hp : w.podsGet "kube-system" "kube-addon-manager-minikube" = .ok pod)
    (hports : running.Spec.Ports = []) :
    printUrl w s =
      ⟨[Event.call (Call.remote (RemoteOp.servicesGet NamespaceDefault s.Name)) none,
        Event.call (Call.remote (RemoteOp.podsGet "kube-system" "kube-addon-manager-minikube")) none],
       .error (Stop.panicIndex 0 0)⟩ := by
  simp [printUrl, bind_run, Run.bind, invoke, must, check, errOf, index0, h, hp, hports]

theorem printUrl_pod_missing_no_port {w : World} {s running : Service} {e : Err}
    (h : w.servicesGet NamespaceDefault s.Name = .ok running)
    (hp : w.podsGet "kube-system" "kube-addon-manager-minikube" = .error e)
    (hports : running.Spec.Ports = []) :
    printUrl w s =
      ⟨[Event.call (Call.remote (RemoteOp.servicesGet NamespaceDefault s.Name)) none,
        Event.call (Call.remote (RemoteOp.podsGet "kube-system" "kube-addon-manager-minikube"))
          (some e),
        Event.printf "\nInfo: %s" [Arg.err e]],
       .error (Stop.panicIndex 0 0)⟩ := by
  simp [printUrl, bind_run, Run.bind, invoke, printf, must, check, errOf, index0, h, hp, hports]

theorem applyAll_eq (w : World) (d : Deployment) (s : Service) :
    applyAll w d s =
      (applyDeployment w d).bind fun _ => (applyService w d s).bind fun _ => printUrl w s := rfl

theorem isStepEvent_mono {l l2 : List RemoteOp} {ev : Event} (hsub : ∀ op ∈ l, op ∈ l2)
    (h : ev.isStepEvent l) : ev.isStepEvent l2 := by
  rcases h with h | ⟨op, r, rfl, hmem⟩
  · exact Or.inl h
  · exact Or.inr ⟨op, r, rfl, hsub op hmem⟩

theorem applyDeployment_events (w : World) (d : Deployment) :
    AllEvents (Event.isStepEvent (deploymentRequests d)) (applyDeployment w d).trace := by
  unfold AllEvents
  rcases hc : w.deploymentsCreate NamespaceDefault d with e | c
  · rcases hu : w.deploymentsUpdate 0 NamespaceDefault d with e2 | u
    · rw [applyDeployment_failed hc hu]
      simp [Event.isStepEvent, deploymentRequests]
    · rw [applyDeployment_updated hc hu]
      simp [Event.isStepEvent, deploymentRequests]
  · rw [applyDeployment_created hc]
    simp [Event.isStepEvent, deploymentRequests]

theorem applyService_events (w : World) (d : Deployment) (s : Service) :
    AllEvents (Event.isStepEvent (serviceRequests d s)) (applyService w d s).trace := by
  unfold AllEvents
  rcases hc : w.servicesCreate NamespaceDefault s with e | c
  · rcases hu : w.deploymentsUpdate 1 NamespaceDefault d with e2 | u
    · rw [applyService_failed hc hu]
      simp [Event.isStepEvent, serviceRequests]
    · rw [applyService_updated hc hu]
      simp [Event.isStepEvent, serviceRequests]
  · rw [applyService_created hc]
    simp [Event.isStepEvent, serviceRequests]

theorem printUrl_events (w : World) (s : Service) :
    AllEvents (Event.isStepEvent (urlRequests s)) (printUrl w s).trace := by
  unfold AllEvents
  rcases hg : w.servicesGet NamespaceDefault s.Name with e | running
  · rw [printUrl_get_failed hg]
    simp [Event.isStepEvent, urlRequests]
  · rcases hp : w.podsGet "kube-system" "kube-addon-manager-minikube" with e | pod
    · rcases hports : running.Spec.Ports with _ | ⟨p, rest⟩
      · rw [printUrl_pod_missing_no_port hg hp hports]
        simp [Event.isStepEvent, urlRequests]
      · rw [printUrl_pod_missing hg hp hports]
        simp [Event.isStepEvent, urlRequests]
    · rcases hports : running.Spec.Ports with _ | ⟨p, rest⟩
      · rw [printUrl_pod_found_no_port hg hp hports]
        simp [Event.isStepEvent, urlRequests]
      · rw [printUrl_pod_found hg hp hports]
        simp [Event.isStepEvent, urlRequests]

theorem afterDeployment_events (w : World) (d : Deployment) (s : Service) :
    AllEvents (Event.isStepEvent (serviceRequests d s ++ urlRequests s))
      ((applyService w d s).bind fun _ => printUrl w s).trace := by
  apply all_bind
  · intro ev hev
    exact isStepEvent_mono (fun op h => List.mem_append_left _ h) (applyService_events w d s ev hev)
  · intro _ ev hev
    exact isStepEvent_mono (fun op h => List.mem_append_right _ h) (printUrl_events w s ev hev)

theorem applyAll_events (w : World) (d : Deployment) (s : Service) :
    AllEvents (Event.isStepEvent (requestsOf d s)) (applyAll w d s).trace := by
  rw [applyAll_eq]
  apply all_bind
  · intro ev hev
    exact isStepEvent_mono (fun op h => by simp [requestsOf, h]) (applyDeployment_events w d ev hev)
  · intro _ ev hev
    refine isStepEvent_mono (fun op h => ?_) (afterDeployment_events w d s ev hev)
    simp only [requestsOf, List.append_assoc, List.mem_append] at h ⊢
    exact Or.inr h

theorem applyAll_remoteOps_subset (w : World) (d : Deployment) (s : Service) (op : RemoteOp)
    (h : op ∈ remoteOps (applyAll w d s).trace) : op ∈ requestsOf d s := by
  obtain ⟨ev, hev, hop⟩ := mem_remoteOps.mp h
  rcases applyAll_events w d s ev hev with ⟨f, a, rfl⟩ | ⟨op2, r, rfl, hmem⟩
  · simp [Event.remoteOp] at hop
  · simp only [Event.remoteOp, Option.some.injEq] at hop
    subst hop
    exact hmem

theorem main_remoteOps_subset (w : World) (op : RemoteOp) (h : op ∈ remoteOps (main w).trace) :
    ∃ d s, (prepare w).result = .ok (d, s) ∧ op ∈ requestsOf d s := by
  rcases hp : (prepare w).result with st | ⟨d, s⟩
  · rw [main_remoteOps_of_error hp] at h
    simp at h
  · rw [main_remoteOps_of_ok hp] at h
    exact ⟨d, s, rfl, applyAll_remoteOps_subset w d s op h⟩

/-! ## Namespaces -/

/-- C4, as the code has it: every request `main` sends about Deployments and
Services is addressed to `corev1.NamespaceDefault`, and every request about
Pods is addressed to the namespace `kube-system`. -/
theorem main_namespaces (w : World) (op : RemoteOp) (h : op ∈ remoteOps (main w).trace) :
    op.ns = if op.isPods = true then "kube-system" else NamespaceDefault := by
  obtain ⟨d, s, _, hmem⟩ := main_remoteOps_subset w op h
  simp only [requestsOf, deploymentRequests, serviceRequests, urlRequests, List.cons_append,
    List.nil_append, List.mem_cons, List.mem_singleton, List.not_mem_nil, or_false] at hmem
  rcases hmem with rfl | rfl | rfl | rfl | rfl | rfl <;> rfl

theorem main_namespaces_witness :
    RemoteOp.podsGet "kube-system" "kube-addon-manager-minikube" ∈ remoteOps (main demoWorld).trace
    ∧ RemoteOp.ns (RemoteOp.podsGet "kube-system" "kube-addon-manager-minikube")
      = if RemoteOp.isPods (RemoteOp.podsGet "kube-system" "kube-addon-manager-minikube") = true
        then "kube-system" else NamespaceDefault :=
  ⟨by decide,
   main_namespaces demoWorld (RemoteOp.podsGet "kube-system" "kube-addon-manager-minikube")
    (by decide)⟩

/-- C4 as stated fails: with every call succeeding, `main` sends the request
for the pod to the namespace `kube-system`, which is not the default one. -/
theorem not_all_default_namespace :
    ¬ ∀ (w : World) (op : RemoteOp), op ∈ remoteOps (main w).trace → op.ns = NamespaceDefault := by
  intro h
  have h1 := h demoWorld (RemoteOp.podsGet "kube-system" "kube-addon-manager-minikube")
    (by decide)
  revert h1
  decide

/-! ## The deployment step -/

theorem bind_trace_split {α β : Type} (r : Run α) (k : α → Run β) :
    ∃ rest, (r.bind k).trace = r.trace ++ rest ∧ ∀ ev ∈ rest, ∃ a, ev ∈ (k a).trace := by
  cases h : r.result with
  | error st => exact ⟨[], by simp [Run.bind_error h], by simp⟩
  | ok a => exact ⟨(k a).trace, by simp [Run.bind_ok h], fun ev hev => ⟨a, hev⟩⟩

theorem trace_le_bind {α β : Type} (r : Run α) (k : α → Run β) : r.trace <+: (r.bind k).trace := by
  obtain ⟨rest, hrest, _⟩ := bind_trace_split r k
  rw [hrest]
  exact List.prefix_append _ _

theorem filter_remoteOps_nil {t : List Event} {l : List RemoteOp} {p : RemoteOp → Bool}
    (ht : ∀ ev ∈ t, ev.isStepEvent l) (hl : ∀ op ∈ l, p op = false) :
    (remoteOps t).filter p = [] := by
  rw [List.filter_eq_nil_iff]
  intro op hop
  obtain ⟨ev, hev, hre⟩ := mem_remoteOps.mp hop
  rcases ht ev hev with ⟨f, a, rfl⟩ | ⟨op2, r, rfl, hmem⟩
  · simp [Event.remoteOp] at hre
  · simp only [Event.remoteOp, Option.some.injEq] at hre
    subst hre
    simp [hl op2 hmem]

theorem applyDeployment_creates_once (w : World) (d : Deployment) :
    (remoteOps (applyDeployment w d).trace).filter RemoteOp.isDeploymentsCreate
      = [RemoteOp.deploymentsCreate NamespaceDefault d] := by
  rcases hc : w.deploymentsCreate NamespaceDefault d with e | c
  · rcases hu : w.deploymentsUpdate 0 NamespaceDefault d with e2 | u
    · rw [applyDeployment_failed hc hu]
      simp [remoteOps, Event.remoteOp, RemoteOp.isDeploymentsCreate]
    · rw [applyDeployment_updated hc hu]
      simp [remoteOps, Event.remoteOp, RemoteOp.isDeploymentsCreate]
  · rw [applyDeployment_created hc]
    simp [remoteOps, Event.remoteOp, RemoteOp.isDeploymentsCreate]

theorem applyAll_split (w : World) (d : Deployment) (s : Service) :
    ∃ rest, (applyAll w d s).trace = (applyDeployment w d).trace ++ rest
      ∧ ∀ ev ∈ rest, ev.isStepEvent (serviceRequests d s ++ urlRequests s) := by
  obtain ⟨rest, hrest, hall⟩ := bind_trace_split (applyDeployment w d)
    (fun _ => (applyService w d s).bind fun _ => printUrl w s)
  refine ⟨rest, by rw [applyAll_eq]; exact hrest, ?_⟩
  intro ev hev
  obtain ⟨_, h⟩ := hall ev hev
  exact afterDeployment_events w d s ev h

theorem applyService_trace_ne_nil (w : World) (d : Deployment) (s : Service) :
    (applyService w d s).trace ≠ [] := by
  rcases hc : w.servicesCreate NamespaceDefault s with e | c
  · rcases hu : w.deploymentsUpdate 1 NamespaceDefault d with e2 | u
    · rw [applyService_failed hc hu]; simp
    · rw [applyService_updated hc hu]; simp
  · rw [applyService_created hc]; simp

theorem main_of_deployment_ok {w : World} {d : Deployment} {s : Service}
    (h : (prepare w).result = .ok (d, s)) (hd : (applyDeployment w d).result = .ok ()) :
    (main w).trace = (prepare w).trace ++ ((applyDeployment w d).trace
      ++ ((applyService w d s).bind fun _ => printUrl w s).trace) := by
  rw [main_of_prepare_ok h, applyAll_eq, Run.bind_ok hd]

theorem main_of_deployment_error {w : World} {d : Deployment} {s : Service} {st : Stop}
    (h : (prepare w).result = .ok (d, s)) (hd : (applyDeployment w d).result = .error st) :
    main w = ⟨(prepare w).trace ++ (applyDeployment w d).trace, .error st⟩ := by
  rw [main_of_prepare_ok h, applyAll_eq, Run.bind_error hd]

/-- C1: once both manifests are parsed, `main` runs the deployment step right
after the preparation; in the whole run `Deployments.Create` is called exactly
once, with the parsed deployment.  When the creation succeeds the step sends
nothing else (no update) and prints `Deployment <name> created` with the name
of the returned object; when it fails with any error the step sends exactly
one `Deployments.Update`, with the same deployment.  The step stops exactly
when both the creation and the update fail, and then the whole process has
panicked with the error of the update and the run of `main` ends with the
events of the deployment step; in every other case `main` goes on with the
service step, so the run of `main` ends at the deployment step exactly when
both calls fail. -/
theorem deployment_create_or_update (w : World) (d : Deployment) (s : Service)
    (h : (prepare w).result = .ok (d, s)) :
    ((prepare w).trace ++ (applyDeployment w d).trace <+: (main w).trace)
    ∧ (remoteOps (main w).trace).filter RemoteOp.isDeploymentsCreate
        = [RemoteOp.deploymentsCreate NamespaceDefault d]
    ∧ (∀ c, w.deploymentsCreate NamespaceDefault d = .ok c →
        remoteOps (applyDeployment w d).trace = [RemoteOp.deploymentsCreate NamespaceDefault d]
        ∧ Event.printf "Deployment %q created\n\n" [Arg.str c.Name]
            ∈ (applyDeployment w d).trace)
    ∧ (∀ e, w.deploymentsCreate NamespaceDefault d = .error e →
        remoteOps (applyDeployment w d).trace
          = [RemoteOp.deploymentsCreate NamespaceDefault d,
             RemoteOp.deploymentsUpdate NamespaceDefault d])
    ∧ (stopOf (applyDeployment w d) ≠ none ↔
        (∃ e, w.deploymentsCreate NamespaceDefault d = .error e)
        ∧ ∃ e2, w.deploymentsUpdate 0 NamespaceDefault d = .error e2)
    ∧ (∀ e e2, w.deploymentsCreate NamespaceDefault d = .error e →
        w.deploymentsUpdate 0 NamespaceDefault d = .error e2 →
        stopOf (main w) = some (Stop.panicErr e2)
        ∧ (main w).trace = (prepare w).trace ++ (applyDeployment w d).trace
        ∧ remoteOps (main w).trace
            = [RemoteOp.deploymentsCreate NamespaceDefault d,
               RemoteOp.deploymentsUpdate NamespaceDefault d])
    ∧ (stopOf (applyDeployment w d) = none →
        (prepare w).trace ++ ((applyDeployment w d).trace ++ (applyService w d s).trace)
          <+: (main w).trace)
    ∧ ((main w).trace = (prepare w).trace ++ (applyDeployment w d).trace ↔
        (∃ e, w.deploymentsCreate NamespaceDefault d = .error e)
        ∧ ∃ e2, w.deploymentsUpdate 0 NamespaceDefault d = .error e2) := by
  obtain ⟨rest, hrest, hall⟩ := applyAll_split w d s
  have hgoes : (applyDeployment w d).result = .ok () →
      ((prepare w).trace ++ ((applyDeployment w d).trace ++ (applyService w d s).trace)
          <+: (main w).trace)
      ∧ (main w).trace ≠ (prepare w).trace ++ (applyDeployment w d).trace := by
    intro hd
    obtain ⟨rest2, hrest2, _⟩ := bind_trace_split (applyService w d s) (fun _ => printUrl w s)
    rw [main_of_deployment_ok h hd, hrest2]
    constructor
    · simp only [← List.append_assoc]
      exact List.prefix_append _ _
    · intro heq
      have hnil : (applyService w d s).trace ++ rest2 = [] := by
        have h2 := List.append_cancel_left heq
        have h3 : (applyDeployment w d).trace ++ ((applyService w d s).trace ++ rest2)
            = (applyDeployment w d).trace ++ [] := by simpa using h2
        exact List.append_cancel_left h3
      exact applyService_trace_ne_nil w d s (List.append_eq_nil.mp hnil).1
  refine ⟨?_, ?_, ?_, ?_, ?_, ?_, ?_, ?_⟩
  · rw [main_of_prepare_ok h]
    simp only [hrest, ← List.append_assoc]
    exact List.prefix_append _ _
  · rw [main_remoteOps_of_ok h, hrest, remoteOps_append, List.filter_append,
      applyDeployment_creates_once]
    rw [filter_remoteOps_nil hall]
    · rfl
    · intro op hop
      simp only [serviceRequests, urlRequests, List.cons_append, List.nil_append, List.mem_cons,
        List.mem_singleton, List.not_mem_nil, or_false] at hop
      rcases hop with rfl | rfl | rfl | rfl <;> rfl
  · intro c hc
    rw [applyDeployment_created hc]
    simp [remoteOps, Event.remoteOp]
  · intro e hc
    rcases hu : w.deploymentsUpdate 0 NamespaceDefault d with e2 | u
    · rw [applyDeployment_failed hc hu]
      simp [remoteOps, Event.remoteOp]
    · rw [applyDeployment_updated hc hu]
      simp [remoteOps, Event.remoteOp]
  · rcases hc : w.deploymentsCreate NamespaceDefault d with e | c
    · rcases hu : w.deploymentsUpdate 0 NamespaceDefault d with e2 | u
      · rw [applyDeployment_failed hc hu]
        simp [stopOf]
      · rw [applyDeployment_updated hc hu]
        simp [stopOf]
    · rw [applyDeployment_created hc]
      simp [stopOf]
  · intro e e2 hc hu
    have hd : (applyDeployment w d).result = .error (Stop.panicErr e2) := by
      rw [applyDeployment_failed hc hu]
    rw [main_of_deployment_error h hd]
    refine ⟨rfl, rfl, ?_⟩
    rw [remoteOps_append, prepare_remoteOps, applyDeployment_failed hc hu]
    simp [remoteOps, Event.remoteOp]
  · intro hstop
    have hd : (applyDeployment w d).result = .ok () := by
      cases hres : (applyDeployment w d).result with
      | error st => simp [stopOf, hres] at hstop
      | ok u => rfl
    exact (hgoes hd).1
  · constructor
    · intro heq
      rcases hc : w.deploymentsCreate NamespaceDefault d with e | c
      · rcases hu : w.deploymentsUpdate 0 NamespaceDefault d with e2 | u
        · exact ⟨⟨e, rfl⟩, ⟨e2, rfl⟩⟩
        · exact absurd heq (hgoes (by rw [applyDeployment_updated hc hu])).2
      · exact absurd heq (hgoes (by rw [applyDeployment_created hc])).2
    · rintro ⟨⟨e, hc⟩, ⟨e2, hu⟩⟩
      have hd : (applyDeployment w d).result = .error (Stop.panicErr e2) := by
        rw [applyDeployment_failed hc hu]
      rw [main_of_deployment_error h hd]

theorem deployment_create_or_update_witness :
    (prepare deploymentBrokenWorld).result = .ok (demoDeployment, demoService)
    ∧ stopOf (main deploymentBrokenWorld) = some (Stop.panicErr "update refused")
    ∧ (main deploymentBrokenWorld).trace
        = (prepare deploymentBrokenWorld).trace
          ++ (applyDeployment deploymentBrokenWorld demoDeployment).trace
    ∧ remoteOps (main deploymentBrokenWorld).trace
        = [RemoteOp.deploymentsCreate NamespaceDefault demoDeployment,
           RemoteOp.deploymentsUpdate NamespaceDefault demoDeployment] :=
  ⟨rfl, (deployment_create_or_update deploymentBrokenWorld demoDeployment demoService rfl).2.2.2.2.2.1
    "create refused" "update refused" rfl rfl⟩

/-! ## The service step -/

/-- C2 at a concrete run: on a cluster that already holds the service, the
fallback of the service step sends `Deployments.Update` with the deployment,
no `Services.Update` is sent, and the line `Service <name> updated` carries
the name of the deployment. -/
theorem service_fallback_updates_deployment :
    remoteOps (main serviceExistsWorld).trace
      = [RemoteOp.deploymentsCreate NamespaceDefault demoDeployment,
         RemoteOp.servicesCreate NamespaceDefault demoService,
         RemoteOp.deploymentsUpdate NamespaceDefault demoDeployment,
         RemoteOp.servicesGet NamespaceDefault "web-svc",
         RemoteOp.podsGet "kube-system" "kube-addon-manager-minikube"]
    ∧ (remoteOps (main serviceExistsWorld).trace).filter RemoteOp.isServicesUpdate = []
    ∧ Event.printf "Service %q updated\n" [Arg.str "web"] ∈ (main serviceExistsWorld).trace
    ∧ Event.printf "Service %q updated\n" [Arg.str "web-svc"] ∉ (main serviceExistsWorld).trace := by
  decide

/-! ## Errors and termination -/

theorem failStopList_append {res : Option Stop} {a b : List Event}
    (ha : FailStopList none a) (hb : FailStopList res b) : FailStopList res (a ++ b) := by
  induction a with
  | nil => simpa using hb
  | cons ev post ih =>
    cases ev with
    | printf f args =>
      simp only [FailStopList, List.cons_append] at ha ⊢
      exact ih ha
    | call c err =>
      cases err with
      | none =>
        simp only [FailStopList, List.cons_append] at ha ⊢
        exact ih ha
      | some e =>
        simp only [FailStopList, List.cons_append] at ha ⊢
        obtain ⟨h1, h2, h3⟩ := ha
        refine ⟨?_, ?_, ih h3⟩
        · intro hc
          have := (h1 hc).2
          simp at this
        · intro hp
          obtain ⟨post2, hpost⟩ := h2 hp
          exact ⟨post2 ++ b, by simp [hpost]⟩

theorem failStopList_split {res : Option Stop} (pre : List Event) :
    ∀ {t : List Event}, FailStopList res t →
    ∀ (c : Call) (e : Err) (post : List Event), t = pre ++ Event.call c (some e) :: post →
      (c.isChecked = true → post = [] ∧ res = some (Stop.panicErr e))
      ∧ (c.isPodsGet = true → ∃ post2, post = Event.printf "\nInfo: %s" [Arg.err e] :: post2) := by
  induction pre with
  | nil =>
    intro t h c e post ht
    subst ht
    simp only [List.nil_append, FailStopList] at h
    exact ⟨h.1, h.2.1⟩
  | cons ev pre ih =>
    intro t h c e post ht
    subst ht
    have htail : FailStopList res (pre ++ Event.call c (some e) :: post) := by
      cases ev with
      | printf f args => simpa only [FailStopList, List.cons_append] using h
      | call c2 err =>
        cases err with
        | none => simpa only [FailStopList, List.cons_append] using h
        | some e2 =>
          simp only [FailStopList, List.cons_append] at h
          exact h.2.2
    exact ih htail c e post rfl

theorem failStop_bind {α β : Type} {r : Run α} {k : α → Run β}
    (hr : FailStop r) (hk : ∀ a, FailStop (k a)) : FailStop (r.bind k) := by
  unfold FailStop at hr ⊢
  cases h : r.result with
  | error st =>
    rw [Run.bind_error h]
    simpa [stopOf, h] using hr
  | ok a =>
    rw [Run.bind_ok h]
    have h1 : FailStopList none r.trace := by simpa [stopOf, h] using hr
    have h2 := hk a
    unfold FailStop at h2
    exact failStopList_append h1 (by simpa [stopOf] using h2)

theorem failStop_must {α : Type} (c : Call) (r : Except Err α) (hc : c.isPodsGet = false) :
    FailStop (must c r) := by
  unfold FailStop
  rw [must_trace]
  cases r with
  | ok a => simp [FailStopList, errOf]
  | error e => simp [FailStopList, errOf, stopOf, must_result, hc]

theorem failStop_invoke {α : Type} (c : Call) (r : Except Err α) (hc : c.isChecked = false)
    (hp : c.isPodsGet = false) : FailStop (invoke c r) := by
  unfold FailStop
  cases r with
  | ok a => simp [FailStopList, errOf, invoke]
  | error e => simp [FailStopList, errOf, invoke, hc, hp]

theorem failStop_printf (f : String) (args : List Arg) : FailStop (printf f args) := by
  simp [FailStop, FailStopList, printf]

theorem failStop_pure {α : Type} (a : α) : FailStop (pure a : Run α) := by
  simp [FailStop, FailStopList, pure_run]

theorem failStop_flagParse (w : World) : FailStop (flagParse w) := by
  unfold flagParse FailStop
  cases w.flags <;> simp [FailStopList]

theorem failStop_prepare (w : World) : FailStop (prepare w) := by
  unfold prepare connect loadService loadDeployment readDocument openYaml
  simp only [bind_run]
  repeat' first
    | apply failStop_must
    | apply failStop_invoke
    | apply failStop_printf
    | apply failStop_pure
    | apply failStop_flagParse
    | apply failStop_bind
    | rfl
    | intro _

theorem failStop_applyDeployment (w : World) (d : Deployment) : FailStop (applyDeployment w d) := by
  rcases hc : w.deploymentsCreate NamespaceDefault d with e | c
  · rcases hu : w.deploymentsUpdate 0 NamespaceDefault d with e2 | u
    · rw [applyDeployment_failed hc hu]
      simp [FailStop, FailStopList, stopOf, Call.isChecked, Call.isPodsGet]
    · rw [applyDeployment_updated hc hu]
      simp [FailStop, FailStopList, stopOf, Call.isChecked, Call.isPodsGet]
  · rw [applyDeployment_created hc]
    simp [FailStop, FailStopList, stopOf]

theorem failStop_applyService (w : World) (d : Deployment) (s : Service) :
    FailStop (applyService w d s) := by
  rcases hc : w.servicesCreate NamespaceDefault s with e | c
  · rcases hu : w.deploymentsUpdate 1 NamespaceDefault d with e2 | u
    · rw [applyService_failed hc hu]
      simp [FailStop, FailStopList, stopOf, Call.isChecked, Call.isPodsGet]
    · rw [applyService_updated hc hu]
      simp [FailStop, FailStopList, stopOf, Call.isChecked, Call.isPodsGet]
  · rw [applyService_created hc]
    simp [FailStop, FailStopList, stopOf]

theorem failStop_printUrl (w : World) (s : Service) : FailStop (printUrl w s) := by
  rcases hg : w.servicesGet NamespaceDefault s.Name with e | running
  · rw [printUrl_get_failed hg]
    simp [FailStop, FailStopList, stopOf, Call.isChecked, Call.isPodsGet]
  · rcases hp : w.podsGet "kube-system" "kube-addon-manager-minikube" with e | pod
    · rcases hports : running.Spec.Ports with _ | ⟨p, rest⟩
      · rw [printUrl_pod_missing_no_port hg hp hports]
        simp [FailStop, FailStopList, stopOf, Call.isChecked, Call.isPodsGet]
      · rw [printUrl_pod_missing hg hp hports]
        simp [FailStop, FailStopList, stopOf, Call.isChecked, Call.isPodsGet]
    · rcases hports : running.Spec.Ports with _ | ⟨p, rest⟩
      · rw [printUrl_pod_found_no_port hg hp hports]
        simp [FailStop, FailStopList, stopOf]
      · rw [printUrl_pod_found hg hp hports]
        simp [FailStop, FailStopList, stopOf]

theorem failStop_main (w : World) : FailStop (main w) := by
  rw [main_eq]
  apply failStop_bind (failStop_prepare w)
  intro p
  rw [applyAll_eq]
  apply failStop_bind (failStop_applyDeployment w p.1)
  intro _
  apply failStop_bind (failStop_applyService w p.1 p.2)
  intro _
  exact failStop_printUrl w p.2

/-- C3, as the code has it: when a call of `main` that is checked (opening
and stat-ing the file, reading and decoding either document, the JSON
conversions, building the client configuration and the clientset, an update,
the `Get` of the service) returns an error, that call is the last event of the
run and the process has panicked with that error; when the `Get` of the pod
returns an error the run goes on and prints the error. -/
theorem checked_error_panics (w : World) (pre post : List Event) (c : Call) (e : Err)
    (ht : (main w).trace = pre ++ Event.call c (some e) :: post) :
    (c.isChecked = true → post = [] ∧ stopOf (main w) = some (Stop.panicErr e))
    ∧ (c.isPodsGet = true → ∃ post2, post = Event.printf "\nInfo: %s" [Arg.err e] :: post2) :=
  failStopList_split pre (failStop_main w) c e post ht

theorem checked_error_panics_witness :
    (main statFailsWorld).trace
      = [Event.call (Call.filepathAbs "configuration.yaml") none,
         Event.call (Call.osOpen "/work/configuration.yaml") none]
        ++ Event.call (Call.fileStat ⟨3⟩) (some "stat failed") :: []
    ∧ ([] : List Event) = []
    ∧ stopOf (main statFailsWorld) = some (Stop.panicErr "stat failed") :=
  ⟨rfl, (checked_error_panics statFailsWorld
    [Event.call (Call.filepathAbs "configuration.yaml") none,
     Event.call (Call.osOpen "/work/configuration.yaml") none]
    [] (Call.fileStat ⟨3⟩) "stat failed" rfl).1 rfl⟩

/-- C3 as stated fails: on a cluster without the minikube pod the `Get` of the
pod returns an error, yet `main` returns normally after printing the line
with the placeholder; and when `filepath.Abs` returns an error the next step,
`os.Open`, is still executed and the panic carries the error of `os.Open`. -/
theorem pod_error_does_not_stop :
    Event.call (Call.remote (RemoteOp.podsGet "kube-system" "kube-addon-manager-minikube"))
        (some "pod not found") ∈ (main podMissingWorld).trace
    ∧ (main podMissingWorld).trace.getLast?
        = some (Event.printf "\nPlease help yourself and view: http://<ip-address>:%v\n\n"
            [Arg.int 31000])
    ∧ stopOf (main podMissingWorld) = none
    ∧ (main absFailsWorld).trace
        = [Event.call (Call.filepathAbs "configuration.yaml")
             (some "getwd: no such file or directory"),
           Event.call (Call.osOpen "") (some "open : no such file or directory")]
    ∧ stopOf (main absFailsWorld) = some (Stop.panicErr "open : no such file or directory") := by
  decide

/-! ## The last step -/

theorem main_of_steps_ok {w : World} {d : Deployment} {s : Service}
    (h : (prepare w).result = .ok (d, s))
    (hd : (applyDeployment w d).result = .ok ())
    (hs : (applyService w d s).result = .ok ()) :
    main w = ⟨(prepare w).trace ++ ((applyDeployment w d).trace
        ++ ((applyService w d s).trace ++ (printUrl w s).trace)), (printUrl w s).result⟩ := by
  rw [main_of_prepare_ok h, applyAll_eq, Run.bind_ok hd, Run.bind_ok hs]

/-- C5, as the code has it: when the preparation and the two apply steps went
through and the `Get` of the service (by the name of the parsed service)
succeeded with a service that has at least one port, the run ends with the
last step, which sends
the `Get` of the service and then the `Get` of the pod
`kube-addon-manager-minikube`.  When the pod is found the last line is
`Please view: http://<HostIP>:<port>`; when it is not, the process does not
stop: the error and then the line with the placeholder are printed.  In both
cases the port is the `NodePort` of the first port of the fetched service. -/
theorem reachability_url (w : World) (d : Deployment) (s running : Service)
    (p : ServicePort) (rest : List ServicePort)
    (h : (prepare w).result = .ok (d, s))
    (hd : (applyDeployment w d).result = .ok ())
    (hs : (applyService w d s).result = .ok ())
    (hg : w.servicesGet NamespaceDefault s.Name = .ok running)
    (hports : running.Spec.Ports = p :: rest) :
    (main w).trace = (prepare w).trace ++ ((applyDeployment w d).trace
        ++ ((applyService w d s).trace ++ (printUrl w s).trace))
    ∧ remoteOps (printUrl w s).trace
        = [RemoteOp.servicesGet NamespaceDefault s.Name,
           RemoteOp.podsGet "kube-system" "kube-addon-manager-minikube"]
    ∧ (∀ pod, w.podsGet "kube-system" "kube-addon-manager-minikube" = .ok pod →
        stopOf (main w) = none
        ∧ (main w).trace.getLast? = some (Event.printf "\nPlease view: http://%s:%v\n\n"
            [Arg.str pod.Status.HostIP, Arg.int p.NodePort]))
    ∧ (∀ e, w.podsGet "kube-system" "kube-addon-manager-minikube" = .error e →
        stopOf (main w) = none
        ∧ ∃ pre, (main w).trace = pre ++
            [Event.printf "\nInfo: %s" [Arg.err e],
             Event.printf "\nPlease help yourself and view: http://<ip-address>:%v\n\n"
               [Arg.int p.NodePort]]) := by
  have hmain := main_of_steps_ok h hd hs
  refine ⟨by rw [hmain], ?_, ?_, ?_⟩
  · rcases hp : w.podsGet "kube-system" "kube-addon-manager-minikube" with e | pod
    · rw [printUrl_pod_missing hg hp hports]
      simp [remoteOps, Event.remoteOp]
    · rw [printUrl_pod_found hg hp hports]
      simp [remoteOps, Event.remoteOp]
  · intro pod hp
    rw [hmain, printUrl_pod_found hg hp hports]
    refine ⟨rfl, ?_⟩
    simp only [← List.append_assoc]
    rw [List.getLast?_append]
    simp
  · intro e hp
    rw [hmain, printUrl_pod_missing hg hp hports]
    refine ⟨rfl, ?_⟩
    refine ⟨(prepare w).trace ++ ((applyDeployment w d).trace ++ ((applyService w d s).trace
      ++ [Event.call (Call.remote (RemoteOp.servicesGet NamespaceDefault s.Name)) none,
          Event.call (Call.remote (RemoteOp.podsGet "kube-system" "kube-addon-manager-minikube"))
            (some e)])), ?_⟩
    simp

theorem reachability_url_witness :
    stopOf (main podMissingWorld) = none
    ∧ ∃ pre, (main podMissingWorld).trace = pre ++
        [Event.printf "\nInfo: %s" [Arg.err "pod not found"],
         Event.printf "\nPlease help yourself and view: http://<ip-address>:%v\n\n"
           [Arg.int (ServicePort.mk 80 31000).NodePort]] :=
  (reachability_url podMissingWorld demoDeployment demoService ⟨"web-svc", ⟨[⟨80, 31000⟩]⟩⟩
    ⟨80, 31000⟩ [] rfl rfl rfl rfl rfl).2.2.2 "pod not found" rfl

/-- C5 as stated fails: when the fetched service has no port, a failed pod
lookup is followed by the line with the error and then by a panic (index out
of range) instead of the line with the placeholder, and a successful pod
lookup is followed by the same panic instead of the line `Please view`. -/
theorem url_line_needs_a_port :
    (prepare noPortPodMissingWorld).result = .ok (demoDeployment, demoService)
    ∧ noPortPodMissingWorld.podsGet "kube-system" "kube-addon-manager-minikube"
        = .error "pod not found"
    ∧ stopOf (main noPortPodMissingWorld) = some (Stop.panicIndex 0 0)
    ∧ (main noPortPodMissingWorld).trace.getLast?
        = some (Event.printf "\nInfo: %s" [Arg.err "pod not found"])
    ∧ ((main noPortPodMissingWorld).trace.filter Event.isUrlLine = [])
    ∧ noPortWorld.podsGet "kube-system" "kube-addon-manager-minikube"
        = .ok ⟨"kube-addon-manager-minikube", ⟨"192.168.99.100"⟩⟩
    ∧ stopOf (main noPortWorld) = some (Stop.panicIndex 0 0)
    ∧ ((main noPortWorld).trace.filter Event.isUrlLine = []) :=
  ⟨rfl, rfl, by decide, by decide, by decide, rfl, by decide, by decide⟩

theorem prepare_no_url (w : World) :
    AllEvents (fun ev => ev.isUrlLine = false) (prepare w).trace := by
  unfold prepare connect loadService loadDeployment readDocument openYaml
  simp only [bind_run]
  repeat' first
    | apply all_must
    | apply all_invoke
    | apply all_printf
    | apply all_pure
    | apply all_flagParse
    | apply all_bind
    | rfl
    | intro _

theorem applyDeployment_no_url (w : World) (d : Deployment) :
    AllEvents (fun ev => ev.isUrlLine = false) (applyDeployment w d).trace := by
  unfold AllEvents
  rcases hc : w.deploymentsCreate NamespaceDefault d with e | c
  · rcases hu : w.deploymentsUpdate 0 NamespaceDefault d with e2 | u
    · rw [applyDeployment_failed hc hu]
      intro ev hev
      simp only [List.mem_cons, List.mem_singleton, List.not_mem_nil, or_false] at hev
      rcases hev with rfl | rfl | rfl | rfl | rfl <;> rfl
    · rw [applyDeployment_updated hc hu]
      intro ev hev
      simp only [List.mem_cons, List.mem_singleton, List.not_mem_nil, or_false] at hev
      rcases hev with rfl | rfl | rfl | rfl | rfl | rfl <;> rfl
  · rw [applyDeployment_created hc]
    intro ev hev
    simp only [List.mem_cons, List.mem_singleton, List.not_mem_nil, or_false] at hev
    rcases hev with rfl | rfl | rfl <;> rfl

theorem applyService_no_url (w : World) (d : Deployment) (s : Service) :
    AllEvents (fun ev => ev.isUrlLine = false) (applyService w d s).trace := by
  unfold AllEvents
  rcases hc : w.servicesCreate NamespaceDefault s with e | c
  · rcases hu : w.deploymentsUpdate 1 NamespaceDefault d with e2 | u
    · rw [applyService_failed hc hu]
      intro ev hev
      simp only [List.mem_cons, List.mem_singleton, List.not_mem_nil, or_false] at hev
      rcases hev with rfl | rfl | rfl | rfl | rfl <;> rfl
    · rw [applyService_updated hc hu]
      intro ev hev
      simp only [List.mem_cons, List.mem_singleton, List.not_mem_nil, or_false] at hev
      rcases hev with rfl | rfl | rfl | rfl | rfl | rfl <;> rfl
  · rw [applyService_created hc]
    intro ev hev
    simp only [List.mem_cons, List.mem_singleton, List.not_mem_nil, or_false] at hev
    rcases hev with rfl | rfl | rfl <;> rfl

/-- C10: when the run reaches the last step and the `Get` of the service
succeeds, both branches read element 0 of the ports of the fetched service:
with at least one port the run ends normally and its last line is a line with
the URL that carries the `NodePort` of that element as last argument; with no
port the process panics with an index out of range and no line with a URL is
printed in the whole run. -/
theorem port_indexing (w : World) (d : Deployment) (s running : Service)
    (h : (prepare w).result = .ok (d, s))
    (hd : (applyDeployment w d).result = .ok ())
    (hs : (applyService w d s).result = .ok ())
    (hg : w.servicesGet NamespaceDefault s.Name = .ok running) :
    (∀ p rest, running.Spec.Ports = p :: rest →
      stopOf (main w) = none
      ∧ ∃ f args, (main w).trace.getLast? = some (Event.printf f (args ++ [Arg.int p.NodePort]))
          ∧ (Event.printf f (args ++ [Arg.int p.NodePort])).isUrlLine = true)
    ∧ (running.Spec.Ports = [] →
      stopOf (main w) = some (Stop.panicIndex 0 0)
      ∧ ∀ ev ∈ (main w).trace, ev.isUrlLine = false) := by
  have hmain := main_of_steps_ok h hd hs
  constructor
  · intro p rest hports
    rcases hp : w.podsGet "kube-system" "kube-addon-manager-minikube" with e | pod
    · rw [hmain, printUrl_pod_missing hg hp hports]
      refine ⟨rfl, "\nPlease help yourself and view: http://<ip-address>:%v\n\n", [], ?_, rfl⟩
      simp only [← List.append_assoc]
      rw [List.getLast?_append]
      simp
    · rw [hmain, printUrl_pod_found hg hp hports]
      refine ⟨rfl, "\nPlease view: http://%s:%v\n\n", [Arg.str pod.Status.HostIP], ?_, rfl⟩
      simp only [← List.append_assoc]
      rw [List.getLast?_append]
      simp
  · intro hports
    have hurl : stopOf (printUrl w s) = some (Stop.panicIndex 0 0)
        ∧ ∀ ev ∈ (printUrl w s).trace, ev.isUrlLine = false := by
      rcases hp : w.podsGet "kube-system" "kube-addon-manager-minikube" with e | pod
      · rw [printUrl_pod_missing_no_port hg hp hports]
        refine ⟨rfl, ?_⟩
        intro ev hev
        simp only [List.mem_cons, List.mem_singleton, List.not_mem_nil, or_false] at hev
        rcases hev with rfl | rfl | rfl <;> rfl
      · rw [printUrl_pod_found_no_port hg hp hports]
        refine ⟨rfl, ?_⟩
        intro ev hev
        simp only [List.mem_cons, List.mem_singleton, List.not_mem_nil, or_false] at hev
        rcases hev with rfl | rfl <;> rfl
    rw [hmain]
    refine ⟨hurl.1, ?_⟩
    intro ev hev
    simp only [List.mem_append] at hev
    rcases hev with hev | hev | hev | hev
    · exact prepare_no_url w ev hev
    · exact applyDeployment_no_url w d ev hev
    · exact applyService_no_url w d s ev hev
    · exact hurl.2 ev hev

theorem port_indexing_witness :
    (prepare noPortWorld).result = .ok (demoDeployment, demoService)
    ∧ stopOf (main noPortWorld) = some (Stop.panicIndex 0 0) :=
  ⟨rfl, ((port_indexing noPortWorld demoDeployment demoService ⟨"web-svc", ⟨[]⟩⟩
    rfl rfl rfl rfl).2 rfl).1⟩

/-! ## Nothing is sent before both manifests are parsed -/

theorem pure_result_ok {α : Type} (a b : α) : (pure a : Run α).result = .ok b ↔ a = b := by
  simp [pure_run]

theorem printf_result_ok (f : String) (args : List Arg) (u : Unit) :
    (printf f args).result = .ok u := rfl

theorem flagParse_result_ok (w : World) (fl : Flags) :
    (flagParse w).result = .ok fl ↔ w.flags = some fl := by
  unfold flagParse
  cases w.flags <;> simp

theorem invoke_result_ok {α : Type} (c : Call) (r a : Except Err α) :
    (invoke c r).result = .ok a ↔ r = a := by
  simp [invoke]

theorem prepare_ok_inv {w : World} {d : Deployment} {s : Service}
    (h : (prepare w).result = .ok (d, s)) : ∃ fileSize, Loaded w fileSize d s := by
  simp only [prepare, connect, loadService, loadDeployment, readDocument, openYaml, bind_run,
    bind_result_ok, must_result_ok, pure_result_ok, flagParse_result_ok, invoke_result_ok,
    printf_result_ok] at h
  obtain ⟨fl, _, size, _, d2, ⟨t1, ⟨chunk1, hr1, ht1⟩, og1, hdec1, _, _, j1, hm1, d3, hu1, hd3⟩,
    s2, ⟨t2, ⟨chunk2, hr2, ht2⟩, og2, hdec2, j2, hm2, s3, hu2, hs3⟩, _, _, hpair⟩ := h
  simp only [Prod.mk.injEq] at hpair
  obtain ⟨rfl, rfl⟩ := hpair
  subst hd3 hs3 ht1 ht2
  exact ⟨size, chunk1, og1.1, og1.2, j1, chunk2, og2.1, og2.2, j2, hr1, hdec1, hm1, hu1, hr2,
    hdec2, hm2, hu2⟩

theorem applyDeployment_remoteOps_head (w : World) (d : Deployment) :
    ∃ tail, remoteOps (applyDeployment w d).trace
      = RemoteOp.deploymentsCreate NamespaceDefault d :: tail := by
  rcases hc : w.deploymentsCreate NamespaceDefault d with e | c
  · rcases hu : w.deploymentsUpdate 0 NamespaceDefault d with e2 | u
    · rw [applyDeployment_failed hc hu]
      simp [remoteOps, Event.remoteOp]
    · rw [applyDeployment_updated hc hu]
      simp [remoteOps, Event.remoteOp]
  · rw [applyDeployment_created hc]
    simp [remoteOps, Event.remoteOp]

theorem main_remoteOps_head {w : World} {d : Deployment} {s : Service}
    (h : (prepare w).result = .ok (d, s)) :
    ∃ tail, remoteOps (main w).trace = RemoteOp.deploymentsCreate NamespaceDefault d :: tail := by
  obtain ⟨rest, hrest, _⟩ := applyAll_split w d s
  obtain ⟨tail, htail⟩ := applyDeployment_remoteOps_head w d
  exact ⟨tail ++ remoteOps rest, by
    rw [main_remoteOps_of_ok h, hrest, remoteOps_append, htail, List.cons_append]⟩

theorem applyAll_last_event (w : World) (d : Deployment) (s : Service) :
    ∃ ev, (applyAll w d s).trace.getLast? = some ev ∧ ev.isStepEvent (requestsOf d s) := by
  have hne : (applyAll w d s).trace ≠ [] := by
    obtain ⟨rest, hrest, _⟩ := applyAll_split w d s
    rw [hrest]
    rcases hc : w.deploymentsCreate NamespaceDefault d with e | c
    · rcases hu : w.deploymentsUpdate 0 NamespaceDefault d with e2 | u
      · rw [applyDeployment_failed hc hu]; simp
      · rw [applyDeployment_updated hc hu]; simp
    · rw [applyDeployment_created hc]; simp
  refine ⟨(applyAll w d s).trace.getLast hne, List.getLast?_eq_getLast _ hne, ?_⟩
  exact applyAll_events w d s _ (List.getLast_mem hne)

theorem load_error_stops_prepare (w : World) (pre post : List Event) (c : Call) (e : Err)
    (ht : (main w).trace = pre ++ Event.call c (some e) :: post) (hc : c.isLoad = true) :
    ∃ st, (prepare w).result = .error st := by
  have hchecked : c.isChecked = true := by
    cases c <;> first | rfl | simp [Call.isLoad] at hc
  have hpost := ((failStopList_split pre (failStop_main w) c e post ht).1 hchecked).1
  subst hpost
  rcases hp : (prepare w).result with st | ⟨d, s⟩
  · exact ⟨st, rfl⟩
  · exfalso
    obtain ⟨ev, hlast, hev⟩ := applyAll_last_event w d s
    have hlast2 : (main w).trace.getLast? = some ev := by
      rw [main_of_prepare_ok hp]
      simp only
      rw [List.getLast?_append, hlast]
      rfl
    rw [ht] at hlast2
    simp only [List.getLast?_append, List.getLast?_singleton, Option.or,
      Option.some.injEq] at hlast2
    subst hlast2
    rcases hev with ⟨f, a, hfa⟩ | ⟨op, r, hop, _⟩
    · cases hfa
    · cases hop
      simp [Call.isLoad] at hc

/-- C9: a request reaches the cluster only when both documents were read,
decoded and converted (the first into the deployment, the second into the
service); when reading, decoding or converting either document fails (a file
with fewer than two documents makes the second read fail) the process panics
with that error and no request was sent; and a `Services.Create` is sent only
after the `Deployments.Create` of the parsed deployment. -/
theorem no_partial_apply (w : World) :
    (∀ op ∈ remoteOps (main w).trace,
      ∃ d s fileSize, (prepare w).result = .ok (d, s) ∧ Loaded w fileSize d s)
    ∧ (∀ pre post c e, (main w).trace = pre ++ Event.call c (some e) :: post →
        c.isLoad = true →
        stopOf (main w) = some (Stop.panicErr e) ∧ remoteOps (main w).trace = [])
    ∧ (∀ pre post ns s2,
        remoteOps (main w).trace = pre ++ RemoteOp.servicesCreate ns s2 :: post →
        ∃ d s, (prepare w).result = .ok (d, s)
          ∧ RemoteOp.deploymentsCreate NamespaceDefault d ∈ pre) := by
  refine ⟨?_, ?_, ?_⟩
  · intro op hop
    obtain ⟨d, s, hp, _⟩ := main_remoteOps_subset w op hop
    obtain ⟨fileSize, hl⟩ := prepare_ok_inv hp
    exact ⟨d, s, fileSize, hp, hl⟩
  · intro pre post c e ht hc
    have hchecked : c.isChecked = true := by
      cases c <;> first | rfl | simp [Call.isLoad] at hc
    obtain ⟨st, hst⟩ := load_error_stops_prepare w pre post c e ht hc
    exact ⟨((failStopList_split pre (failStop_main w) c e post ht).1 hchecked).2,
      main_remoteOps_of_error hst⟩
  · intro pre post ns s2 hops
    rcases hp : (prepare w).result with st | ⟨d, s⟩
    · rw [main_remoteOps_of_error hp] at hops
      simp at hops
    · refine ⟨d, s, rfl, ?_⟩
      obtain ⟨tail, htail⟩ := main_remoteOps_head hp
      rw [htail] at hops
      cases pre with
      | nil => simp at hops
      | cons x pre =>
        simp only [List.cons_append, List.cons.injEq] at hops
        rw [← hops.1]
        exact List.mem_cons_self _ _

theorem no_partial_apply_witness :
    stopOf (main oneDocumentWorld) = some (Stop.panicErr "EOF")
    ∧ remoteOps (main oneDocumentWorld).trace = [] :=
  (no_partial_apply oneDocumentWorld).2.1
    [Event.call (Call.filepathAbs "configuration.yaml") none,
     Event.call (Call.osOpen "/work/configuration.yaml") none,
     Event.call (Call.fileStat ⟨3⟩) none,
     Event.call (Call.documentRead 0 8) none,
     Event.call (Call.decode [100, 0, 101]) none,
     Event.printf
       "groupVersionKind.Group: %s, groupVersionKind.Kind: %s, groupVersionKind.Version: %s\n"
       [Arg.str "apps", Arg.str "Deployment", Arg.str "v1beta1"],
     Event.call (Call.jsonMarshal ⟨"d"⟩) none,
     Event.call (Call.jsonUnmarshalDeployment [1]) none]
    [] (Call.documentRead 1 8) "EOF" rfl rfl

/-! ## The reported kind is not looked at -/

theorem sameButGvkLine_refl {α : Type} (r : Run α) : SameButGvkLine r r := ⟨rfl, rfl⟩

theorem eraseGvkLine_append (a b : List Event) :
    eraseGvkLine (a ++ b) = eraseGvkLine a ++ eraseGvkLine b := by
  simp [eraseGvkLine]

theorem sameButGvkLine_bind {α β : Type} {r1 r2 : Run α} {k1 k2 : α → Run β}
    (hr : SameButGvkLine r1 r2) (hk : ∀ a, SameButGvkLine (k1 a) (k2 a)) :
    SameButGvkLine (r1.bind k1) (r2.bind k2) := by
  obtain ⟨hres, htr⟩ := hr
  cases h1 : r1.result with
  | error st =>
    have h2 : r2.result = .error st := by rw [← hres, h1]
    rw [Run.bind_error h1, Run.bind_error h2]
    exact ⟨rfl, htr⟩
  | ok a =>
    have h2 : r2.result = .ok a := by rw [← hres, h1]
    rw [Run.bind_ok h1, Run.bind_ok h2]
    exact ⟨(hk a).1, by simp only [eraseGvkLine_append, htr, (hk a).2]⟩

theorem remoteOps_eraseGvkLine (t : List Event) : remoteOps (eraseGvkLine t) = remoteOps t := by
  induction t with
  | nil => rfl
  | cons ev t ih =>
    unfold eraseGvkLine remoteOps at ih ⊢
    by_cases h : ev.isGvkLine = true
    · have hre : ev.remoteOp = none := by
        cases ev with
        | call c err => simp [Event.isGvkLine] at h
        | printf f args => rfl
      rw [List.filter_cons_of_neg (by simp [h]), List.filterMap_cons_none hre]
      exact ih
    · rw [List.filter_cons_of_pos (by simp [h])]
      cases hre : ev.remoteOp with
      | none => rw [List.filterMap_cons_none hre, List.filterMap_cons_none hre]; exact ih
      | some op => rw [List.filterMap_cons_some hre, List.filterMap_cons_some hre, ih]

theorem decode_cases {r1 r2 : Except Err (RuntimeObject × GroupVersionKind)}
    (h : decodedObject r1 = decodedObject r2) :
    (∃ e, r1 = .error e ∧ r2 = .error e) ∨ ∃ obj g1 g2, r1 = .ok (obj, g1) ∧ r2 = .ok (obj, g2) := by
  rcases r1 with e1 | ⟨o1, g1⟩ <;> rcases r2 with e2 | ⟨o2, g2⟩ <;>
    simp [decodedObject] at h
  · exact Or.inl ⟨e1, rfl, by rw [h]⟩
  · exact Or.inr ⟨o1, g1, g2, rfl, by rw [h]⟩

theorem loadDeployment_withDecode (w : World)
    (dec2 : List Byte → Except Err (RuntimeObject × GroupVersionKind))
    (hsame : ∀ data, decodedObject (dec2 data) = decodedObject (w.decode data)) (fileSize : Nat) :
    SameButGvkLine (loadDeployment (w.withDecode dec2) fileSize) (loadDeployment w fileSize) := by
  unfold loadDeployment
  simp only [bind_run]
  apply sameButGvkLine_bind (sameButGvkLine_refl _)
  intro data
  show SameButGvkLine ((must (Call.decode data) (dec2 data)).bind _)
    ((must (Call.decode data) (w.decode data)).bind _)
  rcases decode_cases (hsame data) with ⟨e, h2, h1⟩ | ⟨obj, g2, g1, h2, h1⟩
  · rw [h1, h2]
    exact sameButGvkLine_refl _
  · rw [h1, h2]
    have hok1 : (must (Call.decode data) (Except.ok (obj, g1) :
        Except Err (RuntimeObject × GroupVersionKind))).result = .ok (obj, g1) := by
      simp [must_result]
    have hok2 : (must (Call.decode data) (Except.ok (obj, g2) :
        Except Err (RuntimeObject × GroupVersionKind))).result = .ok (obj, g2) := by
      simp [must_result]
    rw [Run.bind_ok hok1, Run.bind_ok hok2]
    constructor
    · simp [printf, Run.bind, World.withDecode]
    · simp [printf, Run.bind, World.withDecode, must_trace, eraseGvkLine, Event.isGvkLine, errOf,
        List.filter_cons]

theorem loadService_withDecode (w : World)
    (dec2 : List Byte → Except Err (RuntimeObject × GroupVersionKind))
    (hsame : ∀ data, decodedObject (dec2 data) = decodedObject (w.decode data)) (fileSize : Nat) :
    SameButGvkLine (loadService (w.withDecode dec2) fileSize) (loadService w fileSize) := by
  unfold loadService
  simp only [bind_run]
  apply sameButGvkLine_bind (sameButGvkLine_refl _)
  intro data
  show SameButGvkLine ((must (Call.decode data) (dec2 data)).bind _)
    ((must (Call.decode data) (w.decode data)).bind _)
  rcases decode_cases (hsame data) with ⟨e, h2, h1⟩ | ⟨obj, g2, g1, h2, h1⟩
  · rw [h1, h2]
    exact sameButGvkLine_refl _
  · rw [h1, h2]
    have hok1 : (must (Call.decode data) (Except.ok (obj, g1) :
        Except Err (RuntimeObject × GroupVersionKind))).result = .ok (obj, g1) := by
      simp [must_result]
    have hok2 : (must (Call.decode data) (Except.ok (obj, g2) :
        Except Err (RuntimeObject × GroupVersionKind))).result = .ok (obj, g2) := by
      simp [must_result]
    rw [Run.bind_ok hok1, Run.bind_ok hok2]
    exact sameButGvkLine_refl _

theorem prepare_withDecode (w : World)
    (dec2 : List Byte → Except Err (RuntimeObject × GroupVersionKind))
    (hsame : ∀ data, decodedObject (dec2 data) = decodedObject (w.decode data)) :
    SameButGvkLine (prepare (w.withDecode dec2)) (prepare w) := by
  unfold prepare
  simp only [bind_run]
  apply sameButGvkLine_bind (sameButGvkLine_refl _)
  intro fl
  apply sameButGvkLine_bind (sameButGvkLine_refl _)
  intro fileSize
  apply sameButGvkLine_bind (loadDeployment_withDecode w dec2 hsame fileSize)
  intro d
  apply sameButGvkLine_bind (loadService_withDecode w dec2 hsame fileSize)
  intro s
  exact sameButGvkLine_refl _

theorem main_withDecode (w : World)
    (dec2 : List Byte → Except Err (RuntimeObject × GroupVersionKind))
    (hsame : ∀ data, decodedObject (dec2 data) = decodedObject (w.decode data)) :
    SameButGvkLine (main (w.withDecode dec2)) (main w) := by
  rw [main_eq, main_eq]
  apply sameButGvkLine_bind (prepare_withDecode w dec2 hsame)
  intro p
  exact sameButGvkLine_refl _

/-- C6: the first document read is the one converted to the deployment and
the second the one converted to the service, whatever kind the decoder
reports; and for two decoders that agree on every document except for the
group/version/kind they report, `main` sends the same requests in the same
order, ends in the same way, and performs the same events, the one line
that prints the group, kind and version of the first document apart. -/
theorem kind_is_ignored (w : World)
    (dec2 : List Byte → Except Err (RuntimeObject × GroupVersionKind))
    (hsame : ∀ data, decodedObject (dec2 data) = decodedObject (w.decode data)) :
    remoteOps (main (w.withDecode dec2)).trace = remoteOps (main w).trace
    ∧ stopOf (main (w.withDecode dec2)) = stopOf (main w)
    ∧ eraseGvkLine (main (w.withDecode dec2)).trace = eraseGvkLine (main w).trace
    ∧ (∀ d s, (prepare w).result = .ok (d, s) → ∃ fileSize, Loaded w fileSize d s) := by
  obtain ⟨hres, htr⟩ := main_withDecode w dec2 hsame
  refine ⟨?_, ?_, htr, fun d s h => prepare_ok_inv h⟩
  · rw [← remoteOps_eraseGvkLine, htr, remoteOps_eraseGvkLine]
  · simp [stopOf, hres]

theorem serviceKindDecode_same (data : List Byte) :
    decodedObject (serviceKindDecode data) = decodedObject (demoWorld.decode data) := by
  unfold serviceKindDecode demoWorld
  simp only
  split <;> rfl

theorem kind_is_ignored_witness :
    (∀ data, decodedObject (serviceKindDecode data) = decodedObject (demoWorld.decode data))
    ∧ remoteOps (main (demoWorld.withDecode serviceKindDecode)).trace
        = remoteOps (main demoWorld).trace :=
  ⟨serviceKindDecode_same, (kind_is_ignored demoWorld serviceKindDecode serviceKindDecode_same).1⟩

/-! ## The two flags -/

theorem prepare_buildsConfig (w : World) (fl : Flags) (hfl : w.flags = some fl) :
    AllEvents (fun ev => ev.buildsConfigFrom (kubeconfigValue w fl) = true) (prepare w).trace := by
  unfold prepare
  simp only [bind_run]
  apply all_bind_ok
  · exact all_flagParse w
  · intro fl2 hfl2
    have hfl3 := (flagParse_result_ok w fl2).mp hfl2
    rw [hfl] at hfl3
    simp only [Option.some.injEq] at hfl3
    subst hfl3
    unfold connect loadService loadDeployment readDocument openYaml
    simp only [bind_run]
    repeat' first
      | apply all_must
      | apply all_invoke
      | apply all_printf
      | apply all_pure
      | apply all_bind
      | rfl
      | intro _
      | simp [Event.buildsConfigFrom]

theorem main_buildsConfig (w : World) (fl : Flags) (hfl : w.flags = some fl) :
    AllEvents (fun ev => ev.buildsConfigFrom (kubeconfigValue w fl) = true) (main w).trace := by
  rw [main_eq]
  apply all_bind (prepare_buildsConfig w fl hfl)
  intro p ev hev
  rcases applyAll_events w p.1 p.2 ev hev with ⟨f, a, hfa⟩ | ⟨op, r2, hop, _⟩
  · rw [hfa]; rfl
  · rw [hop]; rfl

theorem main_opens (w : World) (fl : Flags) (hfl : w.flags = some fl) :
    [Event.call (Call.filepathAbs (yamlfilenameValue fl)) (errOf (w.abs (yamlfilenameValue fl))),
     Event.call (Call.osOpen (pathOf (w.abs (yamlfilenameValue fl))))
       (errOf (w.osOpen (pathOf (w.abs (yamlfilenameValue fl)))))] <+: (main w).trace := by
  have hflag : (flagParse w).result = .ok fl := (flagParse_result_ok w fl).mpr hfl
  have hflagt : (flagParse w).trace = [] := by
    unfold flagParse; rw [hfl]
  have hprep : (prepare w).trace <+: (main w).trace := by
    rw [main_eq]
    exact trace_le_bind _ _
  have hopen : (openYaml w fl).trace <+: (prepare w).trace := by
    unfold prepare
    simp only [bind_run]
    rw [Run.bind_ok hflag]
    simp only [hflagt, List.nil_append]
    exact trace_le_bind _ _
  refine List.IsPrefix.trans ?_ (List.IsPrefix.trans hopen hprep)
  unfold openYaml
  simp only [bind_run]
  have hinv : (invoke (Call.filepathAbs (yamlfilenameValue fl))
      (w.abs (yamlfilenameValue fl))).result = .ok (w.abs (yamlfilenameValue fl)) := rfl
  rw [Run.bind_ok hinv]
  simp only [invoke, List.singleton_append, List.prefix_cons_inj]
  refine List.IsPrefix.trans ?_ (trace_le_bind _ _)
  rw [must_trace]

/-- C7, as the code has it: the file name is `configuration.yaml` unless `-f`
gives another one, and the kubeconfig path is
`filepath.Join(home, ".kube", "config")` when no `--kubeconfig` is given and
the home directory is not empty, the empty string when no `--kubeconfig` is
given and the home directory is empty, and the value of `--kubeconfig`
otherwise.  When `filepath.Abs` resolves the file name, the file opened is
the resolved path; every call that builds the client configuration gets an
empty master URL and this kubeconfig path. -/
theorem flag_defaults (w : World) (fl : Flags) (hfl : w.flags = some fl) :
    (fl.f = none → yamlfilenameValue fl = "configuration.yaml")
    ∧ (∀ name, fl.f = some name → yamlfilenameValue fl = name)
    ∧ (fl.kubeconfig = none → w.home ≠ "" →
        kubeconfigValue w fl = w.join [w.home, ".kube", "config"])
    ∧ (fl.kubeconfig = none → w.home = "" → kubeconfigValue w fl = "")
    ∧ (∀ k, fl.kubeconfig = some k → kubeconfigValue w fl = k)
    ∧ (∀ path, w.abs (yamlfilenameValue fl) = .ok path →
        [Event.call (Call.filepathAbs (yamlfilenameValue fl)) none,
         Event.call (Call.osOpen path) (errOf (w.osOpen path))] <+: (main w).trace)
    ∧ (∀ m k r, Event.call (Call.buildConfigFromFlags m k) r ∈ (main w).trace →
        m = "" ∧ k = kubeconfigValue w fl) := by
  refine ⟨?_, ?_, ?_, ?_, ?_, ?_, ?_⟩
  · intro h; simp [yamlfilenameValue, h]
  · intro name h; simp [yamlfilenameValue, h]
  · intro h hhome; simp [kubeconfigValue, kubeconfigDefault, h, hhome]
  · intro h hhome; simp [kubeconfigValue, kubeconfigDefault, h, hhome]
  · intro k h; simp [kubeconfigValue, h]
  · intro path hpath
    have := main_opens w fl hfl
    rw [hpath] at this
    exact this
  · intro m k r hmem
    have := main_buildsConfig w fl hfl _ hmem
    simpa [Event.buildsConfigFrom] using this

theorem flag_defaults_witness :
    flagsWorld.flags = some ⟨some "/etc/kube.conf", some "app.yaml"⟩
    ∧ ([Event.call (Call.filepathAbs "app.yaml") none,
        Event.call (Call.osOpen "/work/app.yaml") none] <+: (main flagsWorld).trace) :=
  ⟨rfl, (flag_defaults flagsWorld ⟨some "/etc/kube.conf", some "app.yaml"⟩ rfl).2.2.2.2.2.1
    "/work/app.yaml" rfl⟩

/-- C7 as stated fails: for a user without a home directory and with no flag
given, the kubeconfig path handed to `BuildConfigFromFlags` is the empty
string, not the path joined from the home directory. -/
theorem no_home_kubeconfig_empty :
    noHomeWorld.flags = some ⟨none, none⟩
    ∧ Event.call (Call.buildConfigFromFlags "" "") none ∈ (main noHomeWorld).trace
    ∧ noHomeWorld.join [noHomeWorld.home, ".kube", "config"] = ".kube/config" := by
  decide

end ReadYaml
